import Mathlib

/-!
Shallow embedding of the admission-webhook logic of
`pkg/webhook/webhook.go` (network-resources-injector / sriov-dp-admission-controller),
together with proofs about the embedded functions.

Conventions of the embedding:
* Go strings are Lean `String`s; the Go stdlib helpers actually used by the
  source (`strings.Split` with a one-character separator, `strings.TrimSpace`,
  `strings.Replace`) are re-implemented below on `List Char`.
* Go maps are association lists `List (key × value)` with overwrite-on-insert
  (`mapSet`), which models Go map assignment; map iteration order is the list
  order (Go iteration order is unspecified, so any fixed order is a faithful
  refinement for the per-key properties proved here).
* `resource.Quantity` values are modelled as `Int` (the source only ever
  creates integer decimal-SI quantities with `resource.NewQuantity` and adds
  them with `Quantity.Add`).
* `json.Unmarshal` calls are abstracted as explicit decode-outcome parameters:
  the decoded value (or `none` for a decode error) is an input of the model.
* Fallible Go functions returning `(T, error)` become `Except String T`.
-/

namespace NRI

/-! ### Go stdlib string helpers -/

/-- Lowercase-alphanumeric test for one character: the character class
`[a-z0-9]` of the source's `validNameRegex`. -/
def isAlnumLower (c : Char) : Bool :=
  ('a' ≤ c && c ≤ 'z') || ('0' ≤ c && c ≤ '9')

/-- `strings.Split` on a one-character separator, on character lists.
Like Go, the empty input yields one empty field. -/
def splitOnCharAux (sep : Char) : List Char → List (List Char)
  | [] => [[]]
  | c :: rest =>
    match splitOnCharAux sep rest with
    | [] => [[c]]
    | h :: t => if c = sep then [] :: h :: t else (c :: h) :: t

/-- `strings.Split s (string sep)` for a one-character separator `sep`. -/
def splitOnChar (sep : Char) (s : String) : List String :=
  (splitOnCharAux sep s.toList).map List.asString

/-- Go `unicode.IsSpace` restricted to ASCII (the only characters the claims
and the source's annotation grammar involve). -/
def isGoSpace (c : Char) : Bool :=
  c = ' ' || (9 ≤ c.toNat && c.toNat ≤ 13)

/-- `strings.TrimSpace`. -/
def goTrimSpace (s : String) : String :=
  (((s.toList.dropWhile isGoSpace).reverse.dropWhile isGoSpace).reverse).asString

/-- `toSafeJsonPatchKey`: `strings.Replace "~" "~0"` then
`strings.Replace "/" "~1"`, fused into one character pass (the two passes do
not interfere: the first pass introduces no `/`, the second only rewrites
original `/` characters). -/
def toSafeJsonPatchKey (s : String) : String :=
  (s.toList.flatMap fun c =>
    if c = '~' then ['~', '0'] else if c = '/' then ['~', '1'] else [c]).asString

instance exceptDecEq {ε α : Type} [DecidableEq ε] [DecidableEq α] :
    DecidableEq (Except ε α) := fun a b =>
  match a, b with
  | .error x, .error y =>
    if h : x = y then .isTrue (by rw [h]) else .isFalse (by simp [h])
  | .error _, .ok _ => .isFalse (by simp)
  | .ok _, .error _ => .isFalse (by simp)
  | .ok x, .ok y =>
    if h : x = y then .isTrue (by rw [h]) else .isFalse (by simp [h])

/-! ### Association-list maps (Go `map` values) -/

/-- Go map read `m[k]` together with its `ok` flag. -/
def mapLookup {α : Type} : List (String × α) → String → Option α
  | [], _ => none
  | (k', v') :: rest, k => if k' = k then some v' else mapLookup rest k

/-- Go map assignment `m[k] = v` (overwrites in place, else appends). -/
def mapSet {α : Type} : List (String × α) → String → α → List (String × α)
  | [], k, v => [(k, v)]
  | (k', v') :: rest, k, v =>
    if k' = k then (k, v) :: rest else (k', v') :: mapSet rest k v

/-- Go `m[k]++` on a `map[string]int64` (missing keys read as zero). -/
def mapIncr (m : List (String × Int)) (k : String) : List (String × Int) :=
  match mapLookup m k with
  | some v => mapSet m k (v + 1)
  | none => m ++ [(k, 1)]

/-! ### Network selection elements -/

/-- `multus types.NetworkSelectionElement` (the three fields the source
reads/writes). -/
structure NetworkSelectionElement where
  Namespace : String
  Name : String
  InterfaceRequest : String
deriving DecidableEq

/-- The source's `validNameRegex` `^[a-z0-9]([-a-z0-9]*[a-z0-9])?$` as an
executable test: checks the characters after the first one. -/
def validNameTailChars : List Char → Bool
  | [] => true
  | [c] => isAlnumLower c
  | c :: rest => (isAlnumLower c || c = '-') && validNameTailChars rest

/-- `validNameRegex.MatchString`. -/
def validNameRegexMatch (s : String) : Bool :=
  match s.toList with
  | [] => false
  | c :: rest => isAlnumLower c && validNameTailChars rest

/-- The validation loop of `parsePodNetworkSelectionElement`: the first
non-empty unit failing `validNameRegex` produces the error message. -/
def validateUnits : List String → Option String
  | [] => none
  | u :: rest =>
    if !(validNameRegexMatch u) && u.length > 0 then
      some ("at least one of the network selection units is invalid: error found at \x27" ++ u ++ "\x27")
    else validateUnits rest

/-- Builds the element after both splits, running the validation loop over
`[namespace, name, interface]`. -/
def finishSelectionElement (ns nm itf : String) : Except String NetworkSelectionElement :=
  match validateUnits [ns, nm, itf] with
  | some e => .error e
  | none => .ok ⟨ns, nm, itf⟩

/-- The `@`-split half of `parsePodNetworkSelectionElement`. -/
def parseNameInterface (selection ns nmRaw : String) : Except String NetworkSelectionElement :=
  match splitOnChar '@' nmRaw with
  | [n] => finishSelectionElement ns n ""
  | [n, itf] => finishSelectionElement ns n itf
  | _ => .error ("invalid network selection element - more than one \x27@\x27 rune in: \x27" ++ selection ++ "\x27")

/-- `parsePodNetworkSelectionElement` (webhook.go lines 822-871). -/
def parsePodNetworkSelectionElement (selection defaultNamespace : String) :
    Except String NetworkSelectionElement :=
  match splitOnChar '/' selection with
  | [nm] => parseNameInterface selection defaultNamespace nm
  | [ns, nm] => parseNameInterface selection ns nm
  | _ => .error ("invalid network selection element - more than one \x27/\x27 rune in: \x27" ++ selection ++ "\x27")

/-- The comma-separated fallback loop of `parsePodNetworkSelections`: each
field is trimmed, parsed, and the first failure aborts with a wrapped error. -/
def parseCommaSeparatedList (defaultNamespace : String) :
    List String → Except String (List NetworkSelectionElement)
  | [] => .ok []
  | s :: rest =>
    match parsePodNetworkSelectionElement (goTrimSpace s) defaultNamespace with
    | .error e => .error ("error parsing network selection element: " ++ e)
    | .ok el =>
      match parseCommaSeparatedList defaultNamespace rest with
      | .error e => .error e
      | .ok els => .ok (el :: els)

/-- The two alternative parses of the annotation value: `json.Unmarshal` into
a list of elements (its outcome is the `jsonDecode` parameter: `some els` when
the value is a JSON array that decodes to `els`, `none` when decoding fails),
falling back to comma-separated parsing. -/
def parseNetworkSelectionsRaw (jsonDecode : Option (List NetworkSelectionElement))
    (podNetworks defaultNamespace : String) : Except String (List NetworkSelectionElement) :=
  match jsonDecode with
  | some els => .ok els
  | none => parseCommaSeparatedList defaultNamespace (splitOnChar ',' podNetworks)

/-- The namespace-defaulting loop at the end of `parsePodNetworkSelections`
(webhook.go lines 801-817): `none` models the early `return nil, nil` taken
when an element has no namespace and the default namespace is empty. -/
def fillDefaultNamespaces (defaultNamespace : String) :
    List NetworkSelectionElement → Option (List NetworkSelectionElement)
  | [] => some []
  | el :: rest =>
    if el.Namespace = "" then
      if defaultNamespace = "" then none
      else
        match fillDefaultNamespaces defaultNamespace rest with
        | none => none
        | some r => some ({ el with Namespace := defaultNamespace } :: r)
    else
      match fillDefaultNamespaces defaultNamespace rest with
      | none => none
      | some r => some (el :: r)

/-- `parsePodNetworkSelections` (webhook.go lines 774-820). -/
def parsePodNetworkSelections (jsonDecode : Option (List NetworkSelectionElement))
    (podNetworks defaultNamespace : String) : Except String (List NetworkSelectionElement) :=
  if podNetworks = "" then .error "empty string passed as network selection elements list"
  else
    match parseNetworkSelectionsRaw jsonDecode podNetworks defaultNamespace with
    | .error e => .error e
    | .ok els =>
      match fillDefaultNamespaces defaultNamespace els with
      | none => .ok []
      | some filled => .ok filled

/-! ### Annotation keys and pkg/types constants -/

def networksAnnotationKey : String := "k8s.v1.cni.cncf.io/networks"

def nodeSelectorKey : String := "k8s.v1.cni.cncf.io/nodeSelector"

def defaultNetworkAnnotationKey : String := "v1.multus-cni.io/default-network"

/-- Modelled from the spec: `pkg/types` constant `EnvNameContainerName`
(that package is not under src/); §6 names the injected environment variable
`CONTAINER_NAME`. -/
def EnvNameContainerName : String := "CONTAINER_NAME"

/-- Modelled from the spec: `pkg/types` constant `LabelsPath` (file `labels`). -/
def LabelsPath : String := "labels"

/-- Modelled from the spec: `pkg/types` constant `AnnotationsPath`
(file name for the pod annotation set). -/
def AnnotationsPath : String := "annotations"

/-- Modelled from the spec: `pkg/types` constant `DownwardAPIMountPath`
(`/etc/podnetinfo`). -/
def DownwardAPIMountPath : String := "/etc/podnetinfo"

/-! ### Patch operations and pod data -/

/-- One Downward-API volume file of the `podnetinfo` volume. -/
inductive DownwardAPIItem where
  | labels
  | annots
  | hugepage (resourceName containerName path : String)
deriving DecidableEq

/-- The `Value` payloads the source ever puts into a patch operation. -/
inductive PatchValue where
  | emptyResourceList
  | quantity (q : Int)
  | strMap (m : List (String × String))
  | emptyVolumes
  | volume (items : List DownwardAPIItem)
  | emptyVolumeMounts
  | volumeMount
  | envList (name value : String)
  | envVar (name value : String)
deriving DecidableEq

/-- `types.JsonPatchOperation`. -/
structure JsonPatchOperation where
  Operation : String
  Path : String
  Value : PatchValue
deriving DecidableEq

/-- `hugepageResourceData` (webhook.go lines 576-580). -/
structure hugepageResourceData where
  ResourceName : String
  ContainerName : String
  Path : String
deriving DecidableEq

/-- `corev1.Container`: the fields the source reads. Resource quantities are
`Int` (see the file header). `VolumeMounts` keeps only the mount names (the
source only tests emptiness). -/
structure Container where
  Name : String
  Requests : List (String × Int)
  Limits : List (String × Int)
  Env : List (String × String)
  VolumeMounts : List String
deriving DecidableEq

/-- `metav1.OwnerReference`: the fields the source reads. -/
structure OwnerReference where
  Kind : String
  Name : String
  UID : String
deriving DecidableEq

/-- `corev1.Pod`: the fields the source reads. `Volumes` keeps only the volume
names (the source only tests emptiness). -/
structure Pod where
  Namespace : String
  Name : String
  Labels : List (String × String)
  Annots : List (String × String)
  OwnerReferences : List OwnerReference
  Containers : List Container
  NodeSelector : List (String × String)
  Volumes : List String
deriving DecidableEq

/-! ### Control switches and the NAD cache/API -/

/-- Modelled from the spec: the `controlswitches` package (not under src/),
§4.3 — the three read operations the webhook calls
(`GetResourceNameKeys`, `IsHonorExistingResourcesEnabled`,
`IsHugePagedownAPIEnabled`) become fields of a record. -/
structure ControlSwitches where
  resourceNameKeys : List String
  honorExistingResources : Bool
  hugePageDownApi : Bool
deriving DecidableEq

/-- One annotation set of a NetworkAttachmentDefinition. -/
abbrev NadAnnots := List (String × String)

/-- The cluster's network-attachment-definition state: the watch-fed cache
(`NetAttachDefCacheService.Get`, modelled from the spec §4.2: a pure
`(namespace, name) → annotation-map-or-absent` lookup; the package is not
under src/) and the live API objects behind
`getNetworkAttachmentDefinition` (an absent API entry models the failing
`DoRaw` call). -/
structure NadCluster where
  cache : List ((String × String) × NadAnnots)
  api : List ((String × String) × NadAnnots)
deriving DecidableEq

/-- Lookup keyed by (namespace, name). -/
def mapLookupNN {α : Type} : List ((String × String) × α) → String → String → Option α
  | [], _, _ => none
  | (k, v) :: rest, ns, nm =>
    if k.1 = ns ∧ k.2 = nm then some v else mapLookupNN rest ns nm

/-- `nadCache.Get`. -/
def nadCacheGet (cl : NadCluster) (ns nm : String) : Option NadAnnots :=
  mapLookupNN cl.cache ns nm

/-- `getNetworkAttachmentDefinition` (webhook.go lines 873-886): a direct API
read; an object absent from the live API models the failing REST call. -/
def getNetworkAttachmentDefinition (cl : NadCluster) (ns nm : String) :
    Except String NadAnnots :=
  match mapLookupNN cl.api ns nm with
  | some a => .ok a
  | none => .error ("could not get Network Attachment Definition " ++ ns ++ "/" ++ nm)

/-- The resource-name accumulation loop of `parseNetworkAttachDefinition`
(webhook.go lines 904-913): one increment per configured resource-name key
present on the definition. -/
def accumulateResourceNames (keys : List String) (annots : NadAnnots)
    (reqs : List (String × Int)) : List (String × Int) :=
  keys.foldl
    (fun r key =>
      match mapLookup annots key with
      | some resourceName => mapIncr r resourceName
      | none => r)
    reqs

/-- The node-selector parsing block of `parseNetworkAttachDefinition`
(webhook.go lines 915-928): split the annotation value once on `=`. -/
def parseNodeSelectorValue (netName : String) (annots : NadAnnots)
    (nsMap : List (String × String)) : Except String (List (String × String)) :=
  match mapLookup annots nodeSelectorKey with
  | none => .ok nsMap
  | some ns =>
    let nsNameValue := splitOnChar '=' ns
    if 2 < nsNameValue.length then
      .error ("node selector in net-attach-def " ++ netName ++ " has more than one label")
    else
      match nsNameValue with
      | [k, v] => .ok (mapSet nsMap (goTrimSpace k) (goTrimSpace v))
      | _ => .ok (mapSet nsMap (goTrimSpace ns) "")

/-- `parseNetworkAttachDefinition` (webhook.go lines 888-931). -/
def parseNetworkAttachDefinition (sw : ControlSwitches) (cl : NadCluster)
    (net : NetworkSelectionElement) (reqs : List (String × Int))
    (nsMap : List (String × String)) :
    Except String (List (String × Int) × List (String × String)) :=
  let annots? : Except String NadAnnots :=
    match nadCacheGet cl net.Namespace net.Name with
    | some a => .ok a
    | none =>
      match getNetworkAttachmentDefinition cl net.Namespace net.Name with
      | .ok a => .ok a
      | .error e =>
        .error ("could not find network attachment definition \x27" ++ net.Namespace ++
          "/" ++ net.Name ++ "\x27: " ++ e)
  match annots? with
  | .error e => .error e
  | .ok annots =>
    let reqs := accumulateResourceNames sw.resourceNameKeys annots reqs
    match parseNodeSelectorValue net.Name annots nsMap with
    | .error e => .error e
    | .ok nsMap => .ok (reqs, nsMap)

/-! ### Owner-reference namespace resolution -/

/-- Metadata of one ReplicaSet/DaemonSet/StatefulSet/ReplicationController. -/
structure ObjMeta where
  Name : String
  UID : String
  Namespace : String
deriving DecidableEq

/-- The cluster's controller objects, one listing per supported owner kind;
`.error` models a failing `List` API call. -/
structure ClusterObjects where
  replicaSets : Except String (List ObjMeta)
  daemonSets : Except String (List ObjMeta)
  statefulSets : Except String (List ObjMeta)
  replicationControllers : Except String (List ObjMeta)

/-- The per-kind matching loop of `getNamespaceFromOwnerReference`: the first
object with matching name and UID, else the empty namespace. -/
def findOwnerNamespace (items : List ObjMeta) (ownerRef : OwnerReference) : String :=
  match items.find? (fun o => o.Name == ownerRef.Name && o.UID == ownerRef.UID) with
  | some o => o.Namespace
  | none => ""

/-- One supported-kind case of `getNamespaceFromOwnerReference`: propagate a
listing failure, and turn an empty resulting namespace into the
"pod namespace is not found" error. -/
def namespaceFromListing (items? : Except String (List ObjMeta))
    (ownerRef : OwnerReference) : Except String String :=
  match items? with
  | .error e => .error e
  | .ok items =>
    let ns := findOwnerNamespace items ownerRef
    if ns = "" then .error "pod namespace is not found" else .ok ns

/-- `getNamespaceFromOwnerReference` (webhook.go lines 699-766). -/
def getNamespaceFromOwnerReference (cl : ClusterObjects) (ownerRef : OwnerReference) :
    Except String String :=
  if ownerRef.Kind = "ReplicaSet" then namespaceFromListing cl.replicaSets ownerRef
  else if ownerRef.Kind = "DaemonSet" then namespaceFromListing cl.daemonSets ownerRef
  else if ownerRef.Kind = "StatefulSet" then namespaceFromListing cl.statefulSets ownerRef
  else if ownerRef.Kind = "ReplicationController" then
    namespaceFromListing cl.replicationControllers ownerRef
  else .ok "default"

/-- The outcome of `json.Unmarshal` on the admission request's raw pod bytes:
the (possibly partially filled) decoded pod together with the unmarshal
error, if any. -/
structure RawPodDecode where
  pod : Pod
  decodeErr : Option String
deriving DecidableEq

/-- `deserializePod` (webhook.go lines 670-697) minus the abstracted
`json.Unmarshal` (the `dec` parameter): pod namespace, then request
namespace, then first-owner-reference lookup. Returns the pod and the error
`MutateHandler` sees. -/
def deserializePod (cl : ClusterObjects) (dec : RawPodDecode) (requestNamespace : String) :
    Pod × Option String :=
  if dec.pod.Namespace ≠ "" then (dec.pod, dec.decodeErr)
  else if requestNamespace ≠ "" then ({ dec.pod with Namespace := requestNamespace }, none)
  else
    match dec.pod.OwnerReferences with
    | [] => (dec.pod, dec.decodeErr)
    | ownerRef :: _ =>
      match getNamespaceFromOwnerReference cl ownerRef with
      | .error e => (dec.pod, some e)
      | .ok ns => ({ dec.pod with Namespace := ns }, dec.decodeErr)

/-! ### Patch builders -/

/-- `patchEmptyResources` (webhook.go lines 949-956). -/
def patchEmptyResources (patch : List JsonPatchOperation) (containerIndex : Nat)
    (key : String) : List JsonPatchOperation :=
  patch ++ [⟨"add", "/spec/containers/" ++ toString containerIndex ++ "/resources/" ++
    toSafeJsonPatchKey key, .emptyResourceList⟩]

/-- `appendResource` (webhook.go lines 1190-1203). -/
def appendResource (patch : List JsonPatchOperation) (resourceName : String)
    (reqQuantity limitQuantity : Int) : List JsonPatchOperation :=
  patch ++
    [⟨"add", "/spec/containers/0/resources/requests/" ++ toSafeJsonPatchKey resourceName,
      .quantity reqQuantity⟩,
     ⟨"add", "/spec/containers/0/resources/limits/" ++ toSafeJsonPatchKey resourceName,
      .quantity limitQuantity⟩]

/-- The nested delete loops of `createResourcePatch` (webhook.go lines
1138-1147) remove exactly the resource names present in some container's
limits or requests; this is that presence test. -/
def resourcePresentInContainers (containers : List Container) (n : String) : Bool :=
  containers.any fun c => (mapLookup c.Limits n).isSome || (mapLookup c.Requests n).isSome

/-- The shared head of both resource-patch builders (webhook.go lines
1130-1136 and 1162-1171): ensure the first container's `requests`/`limits`
maps exist before targeting them. -/
def patchEmptyBase (patch : List JsonPatchOperation) (c0 : Container) :
    List JsonPatchOperation :=
  let patch := if c0.Requests.isEmpty then patchEmptyResources patch 0 "requests" else patch
  if c0.Limits.isEmpty then patchEmptyResources patch 0 "limits" else patch

/-- `createResourcePatch` (webhook.go lines 1129-1156). `getResourceList`
(lines 1205-1212) builds integer decimal-SI quantities from the counts, which
is the identity in the `Int` quantity model. The source indexes
`Containers[0]` unconditionally (a pod admitted by the API server always has
at least one container); the empty-container case returns the patch
unchanged. -/
def createResourcePatch (patch : List JsonPatchOperation) (containers : List Container)
    (resourceRequests : List (String × Int)) : List JsonPatchOperation :=
  match containers with
  | [] => patch
  | c0 :: _ =>
    let patch := patchEmptyBase patch c0
    let remaining := resourceRequests.filter fun nr => !resourcePresentInContainers containers nr.1
    remaining.foldl (fun p nr => appendResource p nr.1 nr.2 nr.2) patch

/-- `updateResourcePatch` (webhook.go lines 1158-1188): nothing is dropped;
each accumulated count is added on top of the first container's pre-existing
request/limit quantity (a missing entry reads as zero, exactly like the
source's nil-map lookup). -/
def updateResourcePatch (patch : List JsonPatchOperation) (containers : List Container)
    (resourceRequests : List (String × Int)) : List JsonPatchOperation :=
  match containers with
  | [] => patch
  | c0 :: _ =>
    let patch := patchEmptyBase patch c0
    let existingRequestsMap := if c0.Requests.isEmpty then [] else c0.Requests
    let existingLimitsMap := if c0.Limits.isEmpty then [] else c0.Limits
    resourceRequests.foldl
      (fun p nr =>
        appendResource p nr.1 (nr.2 + ((mapLookup existingRequestsMap nr.1).getD 0))
          (nr.2 + ((mapLookup existingLimitsMap nr.1).getD 0)))
      patch

/-- The merge inside `createNodeSelectorPatch` (webhook.go lines 1107-1117):
copy the existing selector, then write every desired pair over it. -/
def mergeStringMaps (existing desired : List (String × String)) : List (String × String) :=
  desired.foldl (fun m kv => mapSet m kv.1 kv.2) existing

/-- `createNodeSelectorPatch` (webhook.go lines 1106-1127). -/
def createNodeSelectorPatch (patch : List JsonPatchOperation)
    (existing desired : List (String × String)) : List JsonPatchOperation :=
  let targetMap := mergeStringMaps existing desired
  if targetMap.isEmpty then patch
  else patch ++ [⟨"add", "/spec/nodeSelector", .strMap targetMap⟩]

/-! ### Hugepage Downward-API processing -/

/-- Strips a literal prefix from a character list. -/
def stripLeading : List Char → List Char → Option (List Char)
  | [], rest => some rest
  | _ :: _, [] => none
  | p :: ps, c :: cs => if p = c then stripLeading ps cs else none

/-- The capture group of `HugepageRegex` `^hugepages-(.+)$` (webhook.go line
589): the non-empty remainder after the literal `hugepages-`. -/
def hugepageSizeOf (resourceName : String) : Option String :=
  match stripLeading "hugepages-".toList resourceName.toList with
  | some [] => none
  | some rest => some rest.asString
  | none => none

/-- `strings.ReplaceAll hugepageSize "i" ""`. -/
def stripLetterI (s : String) : String :=
  (s.toList.filter fun c => c ≠ 'i').asString

/-- The requests scan of one container in `processHugepagesForDownwardAPI`
(webhook.go lines 1287-1300): one descriptor per non-zero hugepage request. -/
def hugepageRequestDescriptors (c : Container) : List hugepageResourceData :=
  c.Requests.filterMap fun (rq : String × Int) =>
    match hugepageSizeOf rq.1 with
    | some sz =>
      if rq.2 ≠ 0 then
        some ⟨"requests." ++ rq.1, c.Name,
          "hugepages_" ++ stripLetterI sz ++ "_request_" ++ c.Name⟩
      else none
    | none => none

/-- The limits scan of one container in `processHugepagesForDownwardAPI`
(webhook.go lines 1302-1316). -/
def hugepageLimitDescriptors (c : Container) : List hugepageResourceData :=
  c.Limits.filterMap fun (rq : String × Int) =>
    match hugepageSizeOf rq.1 with
    | some sz =>
      if rq.2 ≠ 0 then
        some ⟨"limits." ++ rq.1, c.Name,
          "hugepages_" ++ stripLetterI sz ++ "_limit_" ++ c.Name⟩
      else none
    | none => none

/-- `addEnvVar` (webhook.go lines 1054-1077). -/
def addEnvVar (patch : List JsonPatchOperation) (containerIndex : Nat)
    (firstElement : Bool) (envName envVal : String) : List JsonPatchOperation :=
  if firstElement then
    patch ++ [⟨"add", "/spec/containers/" ++ toString containerIndex ++ "/env",
      .envList envName envVal⟩]
  else
    patch ++ [⟨"add", "/spec/containers/" ++ toString containerIndex ++ "/env/-",
      .envVar envName envVal⟩]

/-- `createEnvPatch` (webhook.go lines 1079-1104): no patch when an
environment variable of that name already exists (a differing value is only
logged); otherwise append, creating the array for the first element. -/
def createEnvPatch (patch : List JsonPatchOperation) (c : Container)
    (containerIndex : Nat) (envName envVal : String) : List JsonPatchOperation :=
  if c.Env.isEmpty then addEnvVar patch containerIndex true envName envVal
  else if c.Env.any (fun e => e.1 == envName) then patch
  else addEnvVar patch containerIndex false envName envVal

/-- The container loop of `processHugepagesForDownwardAPI` (webhook.go lines
1283-1325), carrying the running container index. -/
def processHugepagesAux (patch : List JsonPatchOperation) (containerIndex : Nat) :
    List Container → List JsonPatchOperation × List hugepageResourceData
  | [] => (patch, [])
  | c :: rest =>
    let here := hugepageRequestDescriptors c ++ hugepageLimitDescriptors c
    let patch' :=
      if here.isEmpty then patch
      else createEnvPatch patch c containerIndex EnvNameContainerName c.Name
    let pr := processHugepagesAux patch' (containerIndex + 1) rest
    (pr.1, here ++ pr.2)

/-- `processHugepagesForDownwardAPI` (webhook.go lines 1280-1328). -/
def processHugepagesForDownwardAPI (patch : List JsonPatchOperation)
    (containers : List Container) : List JsonPatchOperation × List hugepageResourceData :=
  processHugepagesAux patch 0 containers

/-! ### Volume patches -/

/-- `addVolDownwardAPI` (webhook.go lines 958-1022). -/
def addVolDownwardAPI (patch : List JsonPatchOperation)
    (hugepageResourceList : List hugepageResourceData) (pod : Pod) :
    List JsonPatchOperation :=
  let patch :=
    if pod.Volumes.isEmpty then patch ++ [⟨"add", "/spec/volumes", .emptyVolumes⟩]
    else patch
  let items :=
    (if !pod.Labels.isEmpty then [DownwardAPIItem.labels] else []) ++
    (if !pod.Annots.isEmpty then [DownwardAPIItem.annots] else []) ++
    hugepageResourceList.map (fun h => DownwardAPIItem.hugepage h.ResourceName h.ContainerName h.Path)
  patch ++ [⟨"add", "/spec/volumes/-", .volume items⟩]

/-- The container loop of `addVolumeMount` (webhook.go lines 1024-1046). -/
def addVolumeMountAux (patch : List JsonPatchOperation) (i : Nat) :
    List Container → List JsonPatchOperation
  | [] => patch
  | c :: rest =>
    let patch :=
      if c.VolumeMounts.isEmpty then
        patch ++ [⟨"add", "/spec/containers/" ++ toString i ++ "/volumeMounts",
          .emptyVolumeMounts⟩]
      else patch
    addVolumeMountAux
      (patch ++ [⟨"add", "/spec/containers/" ++ toString i ++ "/volumeMounts/-", .volumeMount⟩])
      (i + 1) rest

/-- `addVolumeMount` (webhook.go lines 1024-1046). -/
def addVolumeMount (patch : List JsonPatchOperation) (containers : List Container) :
    List JsonPatchOperation :=
  addVolumeMountAux patch 0 containers

/-- `createVolPatch` (webhook.go lines 1048-1052). -/
def createVolPatch (patch : List JsonPatchOperation)
    (hugepageResourceList : List hugepageResourceData) (pod : Pod) :
    List JsonPatchOperation :=
  addVolDownwardAPI (addVolumeMount patch pod.Containers) hugepageResourceList pod

/-! ### User-defined injections and network-selection discovery -/

/-- The collection loop of `appendAddAnnotPatch` (webhook.go lines 1222-1233):
gather the annotation maps of all user-defined add operations targeting
`/metadata/annotations`, first-seen key winning (duplicates are only
logged). A value that
is not a string map is skipped (the source would panic on its type
assertion; no user-defined operation with a non-map value passes the store's
load-time validation). -/
def collectUserDefinedAnnots (userDefinedPatch : List JsonPatchOperation) :
    List (String × String) :=
  userDefinedPatch.foldl
    (fun annots p =>
      if p.Path = "/metadata/annotations" ∧ p.Operation = "add" then
        match p.Value with
        | .strMap m =>
          m.foldl (fun a kv => if (mapLookup a kv.1).isSome then a else a ++ [kv]) annots
        | _ => annots
      else annots)
    []

/-- `appendAddAnnotPatch` (webhook.go lines 1214-1246): when any user-defined
annotation was collected, fill in the pod's own annotation keys that are not
already present and emit one add at `/metadata/annotations`. -/
def appendAddAnnotPatch (patch : List JsonPatchOperation) (pod : Pod)
    (userDefinedPatch : List JsonPatchOperation) : List JsonPatchOperation :=
  let annots := collectUserDefinedAnnots userDefinedPatch
  if annots.isEmpty then patch
  else
    let annots :=
      pod.Annots.foldl (fun a kv => if (mapLookup a kv.1).isSome then a else a ++ [kv]) annots
    patch ++ [⟨"add", "/metadata/annotations", .strMap annots⟩]

/-- `appendUserDefinedPatch` (webhook.go lines 1248-1251). -/
def appendUserDefinedPatch (patch : List JsonPatchOperation) (pod : Pod)
    (userDefinedPatch : List JsonPatchOperation) : List JsonPatchOperation :=
  appendAddAnnotPatch patch pod userDefinedPatch

/-- The user-defined-injection search loop of `getNetworkSelections`
(webhook.go lines 1264-1275). -/
def findKeyInUserDefined (annotationKey : String) :
    List JsonPatchOperation → Option String
  | [] => none
  | p :: rest =>
    if p.Operation = "add" ∧ p.Path = "/metadata/annotations" then
      match p.Value with
      | .strMap m =>
        match mapLookup m annotationKey with
        | some v => some v
        | none => findKeyInUserDefined annotationKey rest
      | _ => findKeyInUserDefined annotationKey rest
    else findKeyInUserDefined annotationKey rest

/-- `getNetworkSelections` (webhook.go lines 1253-1278): the pod's own
annotation wins; otherwise search the user-defined fragments. `some`/`none`
model the Go `(value, exists)` pair. -/
def getNetworkSelections (annotationKey : String) (pod : Pod)
    (userDefinedPatch : List JsonPatchOperation) : Option String :=
  match mapLookup pod.Annots annotationKey with
  | some nets => some nets
  | none => findKeyInUserDefined annotationKey userDefinedPatch

/-! ### Request intake -/

/-- The decoded `AdmissionReview` as far as `MutateHandler` reads it: the
type-meta kind, the request's optional namespace, and the raw pod decode
outcome. The source dereferences `ar.Request` unconditionally, so the model
assumes a request is present. -/
structure AdmissionReviewModel where
  Kind : String
  RequestNamespace : String
  PodDecode : RawPodDecode
deriving DecidableEq

/-- The HTTP request as `readAdmissionReview` observes it: whether a body is
attached, its byte length, whether `io.ReadAll` succeeds apart from the
`http.MaxBytesReader` cap, the `Content-Type` header, and the outcome of the
universal deserializer on the body bytes (`none` = decode error). -/
structure HttpRequestModel where
  bodyPresent : Bool
  bodyLen : Nat
  bodyReadOk : Bool
  contentType : String
  decode : Option AdmissionReviewModel
deriving DecidableEq

/-- The `http.MaxBytesReader` cap, `1 << 20` bytes. -/
def maxBytes : Nat := 1048576

/-- The number of body bytes `readAdmissionReview` ends up holding: reading a
missing body, a failing reader, or a body over the 1 MiB cap leaves `body`
empty. -/
def readRequestBodyLen (req : HttpRequestModel) : Nat :=
  if req.bodyPresent && req.bodyReadOk && decide (req.bodyLen ≤ maxBytes) then req.bodyLen
  else 0

/-- `readAdmissionReview` (webhook.go lines 620-653) composed with
`deserializeAdmissionReview` (lines 655-668): an `.error` carries the HTTP
status code and message handed to `http.Error`. -/
def readAdmissionReview (req : HttpRequestModel) :
    Except (Nat × String) AdmissionReviewModel :=
  if readRequestBodyLen req = 0 then
    .error (400, "Error reading HTTP request: empty body")
  else if req.contentType ≠ "application/json" then
    .error (415, "Invalid Content-Type=\x27" ++ req.contentType ++
      "\x27, expected \x27application/json\x27")
  else
    match req.decode with
    | none => .error (400, "error deserializing AdmissionReview")
    | some ar =>
      if ar.Kind ≠ "AdmissionReview" then
        .error (400, "error deserializing AdmissionReview: received object is not an AdmissionReview")
      else .ok ar

/-! ### MutateHandler -/

/-- The `AdmissionResponse` fields the source sets. `Patch = some ops` models
`Response.Patch` being set to the JSON serialization of `ops` (which is
`"null"` for a nil slice, still an attached patch body). -/
structure AdmissionResponseModel where
  Allowed : Bool
  Message : Option String
  Patch : Option (List JsonPatchOperation)
  PatchType : Option String
deriving DecidableEq

/-- What `MutateHandler` hands back: a raw HTTP error via `http.Error`, or a
written admission response. -/
inductive MutateOutcome where
  | httpError (status : Nat) (message : String)
  | response (resp : AdmissionResponseModel)
deriving DecidableEq

/-- `handleValidationError` / the deny paths: allowed = false with the error
text, no patch. -/
def denyResponse (msg : String) : MutateOutcome :=
  .response ⟨false, some msg, none, none⟩

/-- The no-network-annotation path of `MutateHandler` (lines 1449-1459). -/
def skipResponse : MutateOutcome :=
  .response ⟨true, some "Pod spec doesn\x27t have network annotations. Skipping...", none, none⟩

/-- The process-wide inputs of one `MutateHandler` call: control switches,
the NAD cache/API state, the controller listings, the abstracted
`json.Unmarshal` into selection-element lists, and the user-defined-injection
store's `CreateUserDefinedPatch` (modelled from the spec §4.4: the package is
not under src/; only its returned patch-fragment list matters here, a
creation error is merely logged by the source). -/
structure MutateEnv where
  sw : ControlSwitches
  nads : NadCluster
  owners : ClusterObjects
  jsonNSE : String → Option (List NetworkSelectionElement)
  createUserDefinedPatch : Pod → List JsonPatchOperation

/-- The patch-building tail of `MutateHandler` (lines 1421-1443): resource
patch (honor mode selects `updateResourcePatch`), hugepage processing behind
its feature flag, the volume patch, the user-defined annotation patch — all
only when the resource-request map is non-empty — then the unconditional
node-selector patch. -/
def buildPatch (env : MutateEnv) (pod : Pod) (udp : List JsonPatchOperation)
    (reqs : List (String × Int)) (nsMap : List (String × String)) :
    List JsonPatchOperation :=
  let patch : List JsonPatchOperation :=
    if reqs.isEmpty then []
    else
      let p :=
        if env.sw.honorExistingResources then updateResourcePatch [] pod.Containers reqs
        else createResourcePatch [] pod.Containers reqs
      let ph :=
        if env.sw.hugePageDownApi then processHugepagesForDownwardAPI p pod.Containers
        else (p, [])
      let p := createVolPatch ph.1 ph.2 pod
      appendUserDefinedPatch p pod udp
  createNodeSelectorPatch patch pod.NodeSelector nsMap

/-- Response assembly (lines 1413-1448): allowed with message "allowed",
`Patch` always set to the serialized operation list, `PatchType` always
`JSONPatch`. -/
def assembleResponse (env : MutateEnv) (pod : Pod) (udp : List JsonPatchOperation)
    (reqs : List (String × Int)) (nsMap : List (String × String)) : MutateOutcome :=
  .response ⟨true, some "allowed", some (buildPatch env pod udp reqs nsMap), some "JSONPatch"⟩

/-- The secondary-network loop of `MutateHandler` (lines 1395-1408): resolve
each selection in order, aborting on the first failure. -/
def processNetworks (env : MutateEnv) :
    List NetworkSelectionElement → List (String × Int) → List (String × String) →
    Except String (List (String × Int) × List (String × String))
  | [], reqs, nsMap => .ok (reqs, nsMap)
  | n :: rest, reqs, nsMap =>
    match parseNetworkAttachDefinition env.sw env.nads n reqs nsMap with
    | .error e => .error e
    | .ok rm => processNetworks env rest rm.1 rm.2

/-- The secondary-networks stage of `MutateHandler` (lines 1388-1411): a parse
failure is a raw HTTP 400, a resolution failure is a deny. -/
def mutateAddStage (env : MutateEnv) (pod : Pod) (udp : List JsonPatchOperation)
    (addStr : String) (reqs : List (String × Int)) (nsMap : List (String × String)) :
    MutateOutcome :=
  if addStr = "" then assembleResponse env pod udp reqs nsMap
  else
    match parsePodNetworkSelections (env.jsonNSE addStr) addStr pod.Namespace with
    | .error e => .httpError 400 e
    | .ok networks =>
      match processNetworks env networks reqs nsMap with
      | .error msg => denyResponse msg
      | .ok rm => assembleResponse env pod udp rm.1 rm.2

/-- The default-network stage of `MutateHandler` (lines 1367-1387): only a
single-element parse result is resolved; a parse failure is a raw HTTP 400, a
resolution failure is a deny. -/
def mutateDefStage (env : MutateEnv) (pod : Pod) (udp : List JsonPatchOperation)
    (defStr addStr : String) : MutateOutcome :=
  if defStr = "" then mutateAddStage env pod udp addStr [] []
  else
    match parsePodNetworkSelections (env.jsonNSE defStr) defStr pod.Namespace with
    | .error e => .httpError 400 e
    | .ok [n] =>
      match parseNetworkAttachDefinition env.sw env.nads n [] [] with
      | .error msg => denyResponse msg
      | .ok rm => mutateAddStage env pod udp addStr rm.1 rm.2
    | .ok _ => mutateAddStage env pod udp addStr [] []

/-- The annotation-driven core of `MutateHandler` (lines 1357-1459). -/
def mutateCore (env : MutateEnv) (pod : Pod) (udp : List JsonPatchOperation)
    (defNet? addNet? : Option String) : MutateOutcome :=
  if defNet?.isSome || addNet?.isSome then
    mutateDefStage env pod udp (defNet?.getD "") (addNet?.getD "")
  else skipResponse

/-- `MutateHandler` (webhook.go lines 1330-1462). -/
def mutateHandler (env : MutateEnv) (req : HttpRequestModel) : MutateOutcome :=
  match readAdmissionReview req with
  | .error es => .httpError es.1 es.2
  | .ok ar =>
    let pd := deserializePod env.owners ar.PodDecode ar.RequestNamespace
    match pd.2 with
    | some e => denyResponse e
    | none =>
      let pod := pd.1
      let udp := env.createUserDefinedPatch pod
      mutateCore env pod udp (getNetworkSelections defaultNetworkAnnotationKey pod udp)
        (getNetworkSelections networksAnnotationKey pod udp)

/-! ### Statement shorthands -/

/-- The request-side operation `appendResource` emits for one resource. -/
def requestOp (n : String) (q : Int) : JsonPatchOperation :=
  ⟨"add", "/spec/containers/0/resources/requests/" ++ toSafeJsonPatchKey n, .quantity q⟩

/-- The limit-side operation `appendResource` emits for one resource. -/
def limitOp (n : String) (q : Int) : JsonPatchOperation :=
  ⟨"add", "/spec/containers/0/resources/limits/" ++ toSafeJsonPatchKey n, .quantity q⟩

/-! ### Helper lemmas -/

theorem foldl_appendResource (g h : String × Int → Int) (rr : List (String × Int))
    (p : List JsonPatchOperation) :
    rr.foldl (fun acc nr => appendResource acc nr.1 (g nr) (h nr)) p =
      p ++ rr.flatMap fun nr => [requestOp nr.1 (g nr), limitOp nr.1 (h nr)] := by
  induction rr generalizing p with
  | nil => simp
  | cons nr rest ih =>
    simp only [List.foldl_cons, List.flatMap_cons]
    rw [ih]
    simp [appendResource, requestOp, limitOp]

theorem mapLookup_if_isEmpty {α : Type} (m : List (String × α)) (k : String) :
    mapLookup (if m.isEmpty then [] else m) k = mapLookup m k := by
  by_cases h : m.isEmpty
  · rw [if_pos h, List.isEmpty_iff.mp h]
  · rw [if_neg h]

theorem createResourcePatch_eq (patch : List JsonPatchOperation) (c0 : Container)
    (cs : List Container) (rr : List (String × Int)) :
    createResourcePatch patch (c0 :: cs) rr =
      (patchEmptyBase patch c0) ++
        (rr.filter fun nr => !resourcePresentInContainers (c0 :: cs) nr.1).flatMap
          fun nr => [requestOp nr.1 nr.2, limitOp nr.1 nr.2] := by
  simp only [createResourcePatch]
  exact foldl_appendResource (fun nr => nr.2) (fun nr => nr.2) _ _

theorem updateResourcePatch_eq (patch : List JsonPatchOperation) (c0 : Container)
    (cs : List Container) (rr : List (String × Int)) :
    updateResourcePatch patch (c0 :: cs) rr =
      (patchEmptyBase patch c0) ++
        rr.flatMap fun nr =>
          [requestOp nr.1 (nr.2 + ((mapLookup c0.Requests nr.1).getD 0)),
           limitOp nr.1 (nr.2 + ((mapLookup c0.Limits nr.1).getD 0))] := by
  simp only [updateResourcePatch]
  rw [foldl_appendResource
    (fun nr => nr.2 + ((mapLookup (if c0.Requests.isEmpty then [] else c0.Requests) nr.1).getD 0))
    (fun nr => nr.2 + ((mapLookup (if c0.Limits.isEmpty then [] else c0.Limits) nr.1).getD 0))]
  simp only [mapLookup_if_isEmpty]

theorem mem_patchEmptyResources_value (p : List JsonPatchOperation) (i : Nat) (k : String)
    (hp : ∀ op ∈ p, op.Value = PatchValue.emptyResourceList) :
    ∀ op ∈ patchEmptyResources p i k, op.Value = PatchValue.emptyResourceList := by
  intro op hop
  simp only [patchEmptyResources, List.mem_append, List.mem_singleton] at hop
  rcases hop with hop | hop
  · exact hp op hop
  · rw [hop]

theorem mem_patchEmptyBase_value (patch : List JsonPatchOperation) (c0 : Container)
    (h : ∀ op ∈ patch, op.Value = PatchValue.emptyResourceList) :
    ∀ op ∈ patchEmptyBase patch c0, op.Value = PatchValue.emptyResourceList := by
  have hinner : ∀ op ∈ (if c0.Requests.isEmpty then patchEmptyResources patch 0 "requests"
      else patch), op.Value = PatchValue.emptyResourceList := by
    split
    · exact mem_patchEmptyResources_value _ _ _ h
    · exact h
  intro op hop
  simp only [patchEmptyBase] at hop
  split at hop
  · exact mem_patchEmptyResources_value _ _ _ hinner op hop
  · exact hinner op hop

/-! ### Claim C1 -/

/-- Claim C1: patch synthesis obeys the honor-mode asymmetry. With "honor
existing resources" disabled (`createResourcePatch`), every accumulated
resource name already present in some container's requests or limits is
dropped from injection entirely (every emitted operation is either a
make-empty-resources operation or the request/limit "add" pair, on the first
container, of a name present in no container, valued at its accumulated
count); with it enabled (`updateResourcePatch`) no name is dropped and each
name's request/limit "add" pair carries the accumulated count added on top of
the first container's pre-existing request resp. limit quantity. -/
theorem resource_patch_honor_asymmetry (c0 : Container) (cs : List Container)
    (rr : List (String × Int)) :
    (∀ n cnt, (n, cnt) ∈ rr → resourcePresentInContainers (c0 :: cs) n = false →
      requestOp n cnt ∈ createResourcePatch [] (c0 :: cs) rr ∧
      limitOp n cnt ∈ createResourcePatch [] (c0 :: cs) rr) ∧
    (∀ op ∈ createResourcePatch [] (c0 :: cs) rr,
      op.Value = PatchValue.emptyResourceList ∨
      ∃ n cnt, (n, cnt) ∈ rr ∧ resourcePresentInContainers (c0 :: cs) n = false ∧
        (op = requestOp n cnt ∨ op = limitOp n cnt)) ∧
    (∀ n cnt, (n, cnt) ∈ rr →
      requestOp n (cnt + ((mapLookup c0.Requests n).getD 0)) ∈
        updateResourcePatch [] (c0 :: cs) rr ∧
      limitOp n (cnt + ((mapLookup c0.Limits n).getD 0)) ∈
        updateResourcePatch [] (c0 :: cs) rr) := by
  refine ⟨?_, ?_, ?_⟩
  · intro n cnt hmem hpres
    have hfil : (n, cnt) ∈ rr.filter fun nr => !resourcePresentInContainers (c0 :: cs) nr.1 :=
      List.mem_filter.mpr ⟨hmem, by simp [hpres]⟩
    rw [createResourcePatch_eq]
    constructor <;>
      · refine List.mem_append_right _ (List.mem_flatMap.mpr ⟨(n, cnt), hfil, ?_⟩)
        simp
  · intro op hop
    rw [createResourcePatch_eq] at hop
    rcases List.mem_append.mp hop with hbase | hops
    · exact Or.inl (mem_patchEmptyBase_value [] c0 (by simp) op hbase)
    · rcases List.mem_flatMap.mp hops with ⟨nr, hnr, hin⟩
      have hmem := List.mem_filter.mp hnr
      refine Or.inr ⟨nr.1, nr.2, hmem.1, ?_, ?_⟩
      · have := hmem.2
        simp only [Bool.not_eq_true'] at this
        exact this
      · simp only [List.mem_cons, List.not_mem_nil, or_false] at hin
        exact hin
  · intro n cnt hmem
    rw [updateResourcePatch_eq]
    constructor <;>
      · refine List.mem_append_right _ (List.mem_flatMap.mpr ⟨(n, cnt), hmem, ?_⟩)
        simp

/-- Witness for C1 at a concrete pod: one container already limiting
`example.com/bar`; `example.com/foo` (count 2) survives non-honor injection
while honor mode adds 2 on top of the pre-existing request quantity 5. -/
theorem resource_patch_honor_asymmetry_witness :
    requestOp "example.com/foo" 2 ∈
      createResourcePatch []
        [⟨"c", [("example.com/foo", 5)], [("example.com/bar", 1)], [], []⟩]
        [("example.com/foo", 2)] ∨
    requestOp "example.com/foo" (2 + 5) ∈
      updateResourcePatch []
        [⟨"c", [("example.com/foo", 5)], [("example.com/bar", 1)], [], []⟩]
        [("example.com/foo", 2)] := by
  have h := resource_patch_honor_asymmetry
    ⟨"c", [("example.com/foo", 5)], [("example.com/bar", 1)], [], []⟩ []
    [("example.com/foo", 2)]
  refine Or.inr ?_
  have := (h.2.2 "example.com/foo" 2 (by decide)).1
  simpa using this

/-! ### Claim C2 -/

theorem finishSelectionElement_ok {a b c : String} {e : NetworkSelectionElement}
    (h : finishSelectionElement a b c = .ok e) : e = ⟨a, b, c⟩ := by
  simp only [finishSelectionElement] at h
  split at h
  · cases h
  · cases h
    rfl

theorem parseCommaSeparatedList_error_of_mem (d : String) (sel : String)
    (hfail : ∀ e, parsePodNetworkSelectionElement (goTrimSpace sel) d ≠ .ok e) :
    ∀ l : List String, sel ∈ l → ∃ msg, parseCommaSeparatedList d l = .error msg := by
  intro l
  induction l with
  | nil => intro h; cases h
  | cons s rest ih =>
    intro hmem
    simp only [parseCommaSeparatedList]
    cases hp : parsePodNetworkSelectionElement (goTrimSpace s) d with
    | error e => exact ⟨_, rfl⟩
    | ok el =>
      rcases List.mem_cons.mp hmem with heq | hrest
      · exact absurd hp (heq ▸ hfail el)
      · rcases ih hrest with ⟨msg, hmsg⟩
        rw [hmsg]
        exact ⟨msg, rfl⟩

/-- Claim C2: comma-separated network selection parsing. Each (trimmed)
element is split once on `/` — zero slashes keep the default namespace and
the whole string as the name half, one slash gives explicit namespace and
name half, more than one is a parse error — and the name half is split once
on `@` — zero signs give an empty interface request, one gives an explicit
interface, more than one is a parse error; the worked example yields exactly
its two selections, and one failing element fails the whole parse. -/
theorem network_selection_string_parsing :
    (parsePodNetworkSelections none "ns1/net1@eth1,ns2/net2" "default" =
      .ok [⟨"ns1", "net1", "eth1"⟩, ⟨"ns2", "net2", ""⟩]) ∧
    (∀ s d e, parsePodNetworkSelectionElement s d = .ok e →
      (∃ nm, splitOnChar '/' s = [nm] ∧ e.Namespace = d ∧
        ((splitOnChar '@' nm = [e.Name] ∧ e.InterfaceRequest = "") ∨
         splitOnChar '@' nm = [e.Name, e.InterfaceRequest])) ∨
      (∃ ns nm, splitOnChar '/' s = [ns, nm] ∧ e.Namespace = ns ∧
        ((splitOnChar '@' nm = [e.Name] ∧ e.InterfaceRequest = "") ∨
         splitOnChar '@' nm = [e.Name, e.InterfaceRequest]))) ∧
    (∀ s d, 2 < (splitOnChar '/' s).length →
      ∃ msg, parsePodNetworkSelectionElement s d = .error msg) ∧
    (∀ s d ns nm, (splitOnChar '/' s = [nm] ∨ splitOnChar '/' s = [ns, nm]) →
      2 < (splitOnChar '@' nm).length →
      ∃ msg, parsePodNetworkSelectionElement s d = .error msg) ∧
    (∀ raw d sel, sel ∈ splitOnChar ',' raw →
      (∀ e, parsePodNetworkSelectionElement (goTrimSpace sel) d ≠ .ok e) →
      ∃ msg, parsePodNetworkSelections none raw d = .error msg) := by
  refine ⟨by decide, ?_, ?_, ?_, ?_⟩
  · intro s d e h
    simp only [parsePodNetworkSelectionElement] at h
    cases hsplit : splitOnChar '/' s with
    | nil => rw [hsplit] at h; cases h
    | cons u1 rest1 =>
      cases rest1 with
      | nil =>
        rw [hsplit] at h
        refine Or.inl ⟨u1, rfl, ?_⟩
        simp only [parseNameInterface] at h
        cases hat : splitOnChar '@' u1 with
        | nil => rw [hat] at h; cases h
        | cons v1 rest2 =>
          cases rest2 with
          | nil =>
            rw [hat] at h
            cases finishSelectionElement_ok h
            exact ⟨rfl, Or.inl ⟨rfl, rfl⟩⟩
          | cons v2 rest3 =>
            cases rest3 with
            | nil =>
              rw [hat] at h
              cases finishSelectionElement_ok h
              exact ⟨rfl, Or.inr rfl⟩
            | cons v3 rest4 => rw [hat] at h; cases h
      | cons u2 rest2 =>
        cases rest2 with
        | nil =>
          rw [hsplit] at h
          refine Or.inr ⟨u1, u2, rfl, ?_⟩
          simp only [parseNameInterface] at h
          cases hat : splitOnChar '@' u2 with
          | nil => rw [hat] at h; cases h
          | cons v1 rest3 =>
            cases rest3 with
            | nil =>
              rw [hat] at h
              cases finishSelectionElement_ok h
              exact ⟨rfl, Or.inl ⟨rfl, rfl⟩⟩
            | cons v2 rest4 =>
              cases rest4 with
              | nil =>
                rw [hat] at h
                cases finishSelectionElement_ok h
                exact ⟨rfl, Or.inr rfl⟩
              | cons v3 rest5 => rw [hat] at h; cases h
        | cons u3 rest3 => rw [hsplit] at h; cases h
  · intro s d hlen
    simp only [parsePodNetworkSelectionElement]
    cases hsplit : splitOnChar '/' s with
    | nil => rw [hsplit] at hlen; cases hlen
    | cons u1 rest1 =>
      cases rest1 with
      | nil => rw [hsplit] at hlen; simp at hlen
      | cons u2 rest2 =>
        cases rest2 with
        | nil => rw [hsplit] at hlen; simp at hlen
        | cons u3 rest3 => exact ⟨_, rfl⟩
  · intro s d ns nm hsplit hlen
    simp only [parsePodNetworkSelectionElement]
    have hnm : ∃ msg, parseNameInterface s ns nm = .error msg ∧
        ∀ ns', parseNameInterface s ns' nm = .error msg := by
      simp only [parseNameInterface]
      cases hat : splitOnChar '@' nm with
      | nil => rw [hat] at hlen; cases hlen
      | cons v1 rest2 =>
        cases rest2 with
        | nil => rw [hat] at hlen; simp at hlen
        | cons v2 rest3 =>
          cases rest3 with
          | nil => rw [hat] at hlen; simp at hlen
          | cons v3 rest4 => exact ⟨_, rfl, fun ns' => rfl⟩
    rcases hnm with ⟨msg, hmsg, hall⟩
    rcases hsplit with h | h
    · rw [h]
      exact ⟨msg, hall d⟩
    · rw [h]
      exact ⟨msg, hall ns⟩
  · intro raw d sel hmem hfail
    simp only [parsePodNetworkSelections]
    by_cases hraw : raw = ""
    · rw [if_pos hraw]
      exact ⟨_, rfl⟩
    · rw [if_neg hraw]
      rcases parseCommaSeparatedList_error_of_mem d sel hfail _ hmem with ⟨msg, hmsg⟩
      simp only [parseNetworkSelectionsRaw, hmsg]
      exact ⟨msg, rfl⟩

/-- Witness for C2: the two-slash element `a/b/c` and the two-`@` element
`n@e1@e2` each fail, and a failing element fails the surrounding
comma-separated parse. -/
theorem network_selection_string_parsing_witness :
    (∃ msg, parsePodNetworkSelectionElement "a/b/c" "d" = .error msg) ∧
    (∃ msg, parsePodNetworkSelectionElement "n@e1@e2" "d" = .error msg) ∧
    (∃ msg, parsePodNetworkSelections none "ok-net,a/b/c" "d" = .error msg) := by
  refine ⟨network_selection_string_parsing.2.2.1 "a/b/c" "d" (by decide),
    network_selection_string_parsing.2.2.2.1 "n@e1@e2" "d" "x" "n@e1@e2"
      (Or.inl (by decide)) (by decide), ?_⟩
  refine network_selection_string_parsing.2.2.2.2 "ok-net,a/b/c" "d" "a/b/c" (by decide) ?_
  intro e he
  rcases network_selection_string_parsing.2.2.1 (goTrimSpace "a/b/c") "d" (by decide) with
    ⟨msg, hmsg⟩
  rw [he] at hmsg
  cases hmsg

/-! ### Claim C3 -/

theorem fillDefaultNamespaces_none {defNs : String} (hd : defNs = "") :
    ∀ els : List NetworkSelectionElement, (∃ e ∈ els, e.Namespace = "") →
      fillDefaultNamespaces defNs els = none := by
  subst hd
  intro els
  induction els with
  | nil => rintro ⟨e, he, _⟩; cases he
  | cons el rest ih =>
    rintro ⟨e, he, hens⟩
    rcases List.mem_cons.mp he with heq | hrest
    · subst heq
      simp [fillDefaultNamespaces, hens]
    · simp [fillDefaultNamespaces, ih ⟨e, hrest, hens⟩]

theorem fillDefaultNamespaces_some {defNs : String} :
    ∀ els : List NetworkSelectionElement,
      (defNs ≠ "" ∨ ∀ e ∈ els, e.Namespace ≠ "") →
      fillDefaultNamespaces defNs els =
        some (els.map fun e => if e.Namespace = "" then { e with Namespace := defNs } else e) := by
  intro els
  induction els with
  | nil => intro _; rfl
  | cons el rest ih =>
    intro hyp
    have hrest : defNs ≠ "" ∨ ∀ e ∈ rest, e.Namespace ≠ "" := by
      rcases hyp with h | h
      · exact Or.inl h
      · exact Or.inr fun e he => h e (List.mem_cons_of_mem el he)
    by_cases hns : el.Namespace = ""
    · have hd : defNs ≠ "" := by
        rcases hyp with h | h
        · exact h
        · exact absurd hns (h el (List.mem_cons_self el rest))
      simp [fillDefaultNamespaces, hns, hd, ih hrest]
    · simp [fillDefaultNamespaces, hns, ih hrest]

/-- Claim C3: after a successful parse of a non-empty annotation value into
elements `els`, if the resolved default namespace is empty and some element
has an empty namespace, `parsePodNetworkSelections` returns no elements and
no error (the request becomes a no-op); otherwise every element with an
empty namespace is filled with the default namespace. -/
theorem parse_noop_on_empty_default_namespace
    (jsonDec : Option (List NetworkSelectionElement)) (raw defNs : String)
    (els : List NetworkSelectionElement) (hraw : raw ≠ "")
    (h : parseNetworkSelectionsRaw jsonDec raw defNs = .ok els) :
    (defNs = "" → (∃ e ∈ els, e.Namespace = "") →
      parsePodNetworkSelections jsonDec raw defNs = .ok []) ∧
    ((defNs = "" → ∀ e ∈ els, e.Namespace ≠ "") →
      parsePodNetworkSelections jsonDec raw defNs =
        .ok (els.map fun e => if e.Namespace = "" then { e with Namespace := defNs } else e)) := by
  constructor
  · intro hd hex
    simp only [parsePodNetworkSelections, if_neg hraw, h]
    rw [fillDefaultNamespaces_none hd els hex]
  · intro hyp
    simp only [parsePodNetworkSelections, if_neg hraw, h]
    have : defNs ≠ "" ∨ ∀ e ∈ els, e.Namespace ≠ "" := by
      by_cases hd : defNs = ""
      · exact Or.inr (hyp hd)
      · exact Or.inl hd
    rw [fillDefaultNamespaces_some els this]

/-- Witness for C3: a JSON-decoded element without a namespace is a no-op
under an empty default namespace and is filled under default namespace
`default`. -/
theorem parse_noop_on_empty_default_namespace_witness :
    parsePodNetworkSelections (some [⟨"", "net1", ""⟩])
      "[\x7b\"name\":\"net1\"\x7d]" "" = .ok [] ∧
    parsePodNetworkSelections (some [⟨"", "net1", ""⟩])
      "[\x7b\"name\":\"net1\"\x7d]" "default" = .ok [⟨"default", "net1", ""⟩] := by
  constructor
  · exact (parse_noop_on_empty_default_namespace (some [⟨"", "net1", ""⟩])
      "[\x7b\"name\":\"net1\"\x7d]" "" [⟨"", "net1", ""⟩] (by decide) rfl).1 rfl
      ⟨⟨"", "net1", ""⟩, by simp, rfl⟩
  · have h := (parse_noop_on_empty_default_namespace (some [⟨"", "net1", ""⟩])
      "[\x7b\"name\":\"net1\"\x7d]" "default" [⟨"", "net1", ""⟩] (by decide) rfl).2
      (fun hd => absurd hd (by decide))
    rw [h]
    decide

/-! ### Claim C4 -/

/-- Claim C4: namespace resolution order with first success winning — (a) a
non-empty pod metadata namespace is returned unchanged and the cluster state
(owner-reference lookups) is never consulted; (b) else a non-empty admission
request namespace; (c) else the first owner reference is resolved: the four
supported kinds by listing that kind's cluster objects and matching name and
UID, any other kind defaulting to namespace `default`, and a missing match
yielding the "pod namespace is not found" error. -/
theorem namespace_resolution_order (cl : ClusterObjects) (dec : RawPodDecode)
    (reqNs : String) :
    (dec.pod.Namespace ≠ "" →
      deserializePod cl dec reqNs = (dec.pod, dec.decodeErr) ∧
      ∀ cl' : ClusterObjects, deserializePod cl dec reqNs = deserializePod cl' dec reqNs) ∧
    (dec.pod.Namespace = "" → reqNs ≠ "" →
      deserializePod cl dec reqNs = ({ dec.pod with Namespace := reqNs }, none)) ∧
    (∀ ref refs, dec.pod.Namespace = "" → reqNs = "" →
      dec.pod.OwnerReferences = ref :: refs →
      (∀ ns, getNamespaceFromOwnerReference cl ref = .ok ns →
        deserializePod cl dec reqNs = ({ dec.pod with Namespace := ns }, dec.decodeErr)) ∧
      (∀ e, getNamespaceFromOwnerReference cl ref = .error e →
        deserializePod cl dec reqNs = (dec.pod, some e))) ∧
    (∀ ref : OwnerReference,
      ref.Kind ≠ "ReplicaSet" → ref.Kind ≠ "DaemonSet" → ref.Kind ≠ "StatefulSet" →
      ref.Kind ≠ "ReplicationController" →
      getNamespaceFromOwnerReference cl ref = .ok "default") ∧
    (∀ (ref : OwnerReference) (items : List ObjMeta) (kindSel : Except String (List ObjMeta)),
      ((ref.Kind = "ReplicaSet" ∧ kindSel = cl.replicaSets) ∨
       (ref.Kind = "DaemonSet" ∧ kindSel = cl.daemonSets) ∨
       (ref.Kind = "StatefulSet" ∧ kindSel = cl.statefulSets) ∨
       (ref.Kind = "ReplicationController" ∧ kindSel = cl.replicationControllers)) →
      kindSel = .ok items →
      (items.find? (fun o => o.Name == ref.Name && o.UID == ref.UID) = none →
        getNamespaceFromOwnerReference cl ref = .error "pod namespace is not found") ∧
      (∀ o, items.find? (fun o => o.Name == ref.Name && o.UID == ref.UID) = some o →
        o.Namespace ≠ "" →
        getNamespaceFromOwnerReference cl ref = .ok o.Namespace)) := by
  refine ⟨?_, ?_, ?_, ?_, ?_⟩
  · intro hns
    constructor
    · simp only [deserializePod, if_pos hns]
    · intro cl'
      simp only [deserializePod, if_pos hns]
  · intro hns hreq
    simp only [deserializePod, hns, ne_eq, not_true_eq_false, if_false, if_neg, if_pos hreq]
  · intro ref refs hns hreq hown
    constructor
    · intro ns hok
      simp only [deserializePod, hns, hreq, ne_eq, not_true_eq_false, if_false, hown, hok]
    · intro e herr
      simp only [deserializePod, hns, hreq, ne_eq, not_true_eq_false, if_false, hown, herr]
  · intro ref h1 h2 h3 h4
    simp only [getNamespaceFromOwnerReference, if_neg h1, if_neg h2, if_neg h3, if_neg h4]
  · intro ref items kindSel hkind hok
    have hres : getNamespaceFromOwnerReference cl ref = namespaceFromListing kindSel ref := by
      rcases hkind with ⟨hk, hs⟩ | ⟨hk, hs⟩ | ⟨hk, hs⟩ | ⟨hk, hs⟩ <;>
        rw [hs] <;> simp only [getNamespaceFromOwnerReference, hk] <;>
        simp [hk]
    constructor
    · intro hfind
      rw [hres, hok]
      simp only [namespaceFromListing, findOwnerNamespace, hfind]
      rfl
    · intro o hfind hons
      rw [hres, hok]
      simp only [namespaceFromListing, findOwnerNamespace, hfind]
      rw [if_neg hons]

/-- Witness for C4: a pod with non-empty namespace resolves unchanged on two
different cluster states; an unsupported owner kind resolves to `default`;
a ReplicaSet owner resolves by name/UID match; a missing match errors. -/
theorem namespace_resolution_order_witness :
    deserializePod ⟨.ok [], .ok [], .ok [], .ok []⟩
      ⟨{ Namespace := "ns9", Name := "p", Labels := [], Annots := [],
         OwnerReferences := [⟨"ReplicaSet", "rs", "u"⟩], Containers := [],
         NodeSelector := [], Volumes := [] }, none⟩ "other" =
      ({ Namespace := "ns9", Name := "p", Labels := [], Annots := [],
         OwnerReferences := [⟨"ReplicaSet", "rs", "u"⟩], Containers := [],
         NodeSelector := [], Volumes := [] }, none) ∧
    getNamespaceFromOwnerReference ⟨.ok [], .ok [], .ok [], .ok []⟩ ⟨"Job", "j", "u"⟩ =
      .ok "default" ∧
    getNamespaceFromOwnerReference
      ⟨.ok [⟨"rs", "u1", "nsrs"⟩], .ok [], .ok [], .ok []⟩ ⟨"ReplicaSet", "rs", "u1"⟩ =
      .ok "nsrs" ∧
    getNamespaceFromOwnerReference
      ⟨.ok [⟨"rs", "u1", "nsrs"⟩], .ok [], .ok [], .ok []⟩ ⟨"ReplicaSet", "rs", "u2"⟩ =
      .error "pod namespace is not found" := by
  refine ⟨?_, ?_, ?_, ?_⟩
  · exact ((namespace_resolution_order ⟨.ok [], .ok [], .ok [], .ok []⟩
      ⟨{ Namespace := "ns9", Name := "p", Labels := [], Annots := [],
         OwnerReferences := [⟨"ReplicaSet", "rs", "u"⟩], Containers := [],
         NodeSelector := [], Volumes := [] }, none⟩ "other").1 (by decide)).1
  · exact (namespace_resolution_order ⟨.ok [], .ok [], .ok [], .ok []⟩
      ⟨⟨"", "", [], [], [], [], [], []⟩, none⟩ "").2.2.2.1 ⟨"Job", "j", "u"⟩
      (by decide) (by decide) (by decide) (by decide)
  · exact ((namespace_resolution_order ⟨.ok [⟨"rs", "u1", "nsrs"⟩], .ok [], .ok [], .ok []⟩
      ⟨⟨"", "", [], [], [], [], [], []⟩, none⟩ "").2.2.2.2 ⟨"ReplicaSet", "rs", "u1"⟩
      [⟨"rs", "u1", "nsrs"⟩] (.ok [⟨"rs", "u1", "nsrs"⟩])
      (Or.inl ⟨rfl, rfl⟩) rfl).2 ⟨"rs", "u1", "nsrs"⟩ (by decide) (by decide)
  · exact ((namespace_resolution_order ⟨.ok [⟨"rs", "u1", "nsrs"⟩], .ok [], .ok [], .ok []⟩
      ⟨⟨"", "", [], [], [], [], [], []⟩, none⟩ "").2.2.2.2 ⟨"ReplicaSet", "rs", "u2"⟩
      [⟨"rs", "u1", "nsrs"⟩] (.ok [⟨"rs", "u1", "nsrs"⟩])
      (Or.inl ⟨rfl, rfl⟩) rfl).1 (by decide)

/-! ### Claim C5 -/

theorem mapLookup_mapSet_self {α : Type} (m : List (String × α)) (k : String) (v : α) :
    mapLookup (mapSet m k v) k = some v := by
  induction m with
  | nil => simp [mapSet, mapLookup]
  | cons kv rest ih =>
    by_cases h : kv.1 = k
    · simp [mapSet, mapLookup, h]
    · simp [mapSet, mapLookup, h, ih]

theorem mapLookup_mapSet_other {α : Type} (m : List (String × α)) (k k' : String) (v : α)
    (h : k' ≠ k) : mapLookup (mapSet m k v) k' = mapLookup m k' := by
  have hkk' : ¬ k = k' := fun he => h he.symm
  induction m with
  | nil => simp only [mapSet, mapLookup, if_neg hkk']
  | cons kv rest ih =>
    by_cases hk : kv.1 = k
    · have hkv : ¬ kv.1 = k' := by rw [hk]; exact hkk'
      simp only [mapSet, if_pos hk, mapLookup, if_neg hkk', if_neg hkv]
    · simp only [mapSet, if_neg hk, mapLookup, ih]

theorem mapLookup_eq_none_of_not_mem_keys {α : Type} (m : List (String × α)) (k : String)
    (h : k ∉ m.map Prod.fst) : mapLookup m k = none := by
  induction m with
  | nil => rfl
  | cons kv rest ih =>
    simp only [List.map_cons, List.mem_cons] at h
    push_neg at h
    simp only [mapLookup, if_neg (fun he : kv.1 = k => h.1 he.symm)]
    exact ih h.2

theorem mergeStringMaps_cons (ex : List (String × String)) (kv : String × String)
    (rest : List (String × String)) :
    mergeStringMaps ex (kv :: rest) = mergeStringMaps (mapSet ex kv.1 kv.2) rest := rfl

theorem mergeStringMaps_lookup_none (de : List (String × String)) :
    ∀ (ex : List (String × String)) (k : String), mapLookup de k = none →
      mapLookup (mergeStringMaps ex de) k = mapLookup ex k := by
  induction de with
  | nil => intro ex k _; rfl
  | cons kv rest ih =>
    intro ex k h
    simp only [mapLookup] at h
    rw [mergeStringMaps_cons]
    split at h
    · cases h
    · rw [ih (mapSet ex kv.1 kv.2) k h]
      exact mapLookup_mapSet_other ex kv.1 k kv.2 (by rename_i hne; exact fun he => hne he.symm)

theorem mergeStringMaps_lookup_some (de : List (String × String)) :
    ∀ (ex : List (String × String)) (k : String) (v : String),
      (de.map Prod.fst).Nodup → mapLookup de k = some v →
      mapLookup (mergeStringMaps ex de) k = some v := by
  induction de with
  | nil => intro ex k v _ h; cases h
  | cons kv rest ih =>
    intro ex k v hnd h
    simp only [List.map_cons, List.nodup_cons] at hnd
    simp only [mapLookup] at h
    rw [mergeStringMaps_cons]
    split at h
    · rename_i heq
      cases h
      have hrest : mapLookup rest k = none := by
        refine mapLookup_eq_none_of_not_mem_keys rest k ?_
        rw [← heq]
        exact hnd.1
      rw [mergeStringMaps_lookup_none rest (mapSet ex kv.1 kv.2) k hrest, ← heq]
      exact mapLookup_mapSet_self ex kv.1 kv.2
    · exact ih (mapSet ex kv.1 kv.2) k v hnd.2 h

theorem parseNetworkAttachDefinition_cache (sw : ControlSwitches) (cl : NadCluster)
    (net : NetworkSelectionElement) (reqs : List (String × Int))
    (nsMap : List (String × String)) (annots : NadAnnots)
    (hcache : nadCacheGet cl net.Namespace net.Name = some annots) :
    parseNetworkAttachDefinition sw cl net reqs nsMap =
      match parseNodeSelectorValue net.Name annots nsMap with
      | .error e => .error e
      | .ok m => .ok (accumulateResourceNames sw.resourceNameKeys annots reqs, m) := by
  simp only [parseNetworkAttachDefinition, hcache]

theorem parseNodeSelectorValue_two (netName : String) (annots : NadAnnots)
    (nsMap : List (String × String)) (v k val : String)
    (hv : mapLookup annots nodeSelectorKey = some v)
    (hsplit : splitOnChar '=' v = [k, val]) :
    parseNodeSelectorValue netName annots nsMap =
      .ok (mapSet nsMap (goTrimSpace k) (goTrimSpace val)) := by
  simp only [parseNodeSelectorValue, hv, hsplit]
  rw [if_neg (by simp : ¬ 2 < ([k, val] : List String).length)]

theorem parseNodeSelectorValue_single (netName : String) (annots : NadAnnots)
    (nsMap : List (String × String)) (v v0 : String)
    (hv : mapLookup annots nodeSelectorKey = some v)
    (hsplit : splitOnChar '=' v = [v0]) :
    parseNodeSelectorValue netName annots nsMap =
      .ok (mapSet nsMap (goTrimSpace v) "") := by
  simp only [parseNodeSelectorValue, hv, hsplit]
  rw [if_neg (by simp : ¬ 2 < ([v0] : List String).length)]

theorem parseNodeSelectorValue_toolong (netName : String) (annots : NadAnnots)
    (nsMap : List (String × String)) (v : String)
    (hv : mapLookup annots nodeSelectorKey = some v)
    (hlen : 2 < (splitOnChar '=' v).length) :
    parseNodeSelectorValue netName annots nsMap =
      .error ("node selector in net-attach-def " ++ netName ++ " has more than one label") := by
  simp only [parseNodeSelectorValue, hv, if_pos hlen]

/-- Claim C5: node-selector handling. With the NAD found in the cache: a
node-selector annotation value with more than one `=` is a hard error from
`parseNetworkAttachDefinition` (which the handler turns into a deny), exactly
one `=` accumulates the trimmed key/value pair, zero accumulates the trimmed
value as a key with empty value; accumulation is per-key overwrite (last
write wins); `createNodeSelectorPatch` merges the desired map over the
existing node selector with desired values winning and emits exactly one
"add" at `/spec/nodeSelector` iff the merged map is non-empty — also when
the resource-request map is empty. -/
theorem node_selector_parse_and_patch (sw : ControlSwitches) (cl : NadCluster)
    (net : NetworkSelectionElement) (reqs : List (String × Int))
    (nsMap : List (String × String)) (annots : NadAnnots)
    (hcache : nadCacheGet cl net.Namespace net.Name = some annots) :
    (∀ v, mapLookup annots nodeSelectorKey = some v → 2 < (splitOnChar '=' v).length →
      ∃ e, parseNetworkAttachDefinition sw cl net reqs nsMap = .error e) ∧
    (∀ v k val, mapLookup annots nodeSelectorKey = some v → splitOnChar '=' v = [k, val] →
      parseNetworkAttachDefinition sw cl net reqs nsMap =
        .ok (accumulateResourceNames sw.resourceNameKeys annots reqs,
          mapSet nsMap (goTrimSpace k) (goTrimSpace val))) ∧
    (∀ v v0, mapLookup annots nodeSelectorKey = some v → splitOnChar '=' v = [v0] →
      parseNetworkAttachDefinition sw cl net reqs nsMap =
        .ok (accumulateResourceNames sw.resourceNameKeys annots reqs,
          mapSet nsMap (goTrimSpace v) "")) ∧
    (∀ (m : List (String × String)) k v, mapLookup (mapSet m k v) k = some v) ∧
    (∀ (env : MutateEnv) (n : NetworkSelectionElement) rest reqs₂ nsMap₂ e,
      parseNetworkAttachDefinition env.sw env.nads n reqs₂ nsMap₂ = .error e →
      processNetworks env (n :: rest) reqs₂ nsMap₂ = .error e) ∧
    (∀ (env : MutateEnv) (pod : Pod) udp addStr reqs₂ nsMap₂ networks msg,
      addStr ≠ "" →
      parsePodNetworkSelections (env.jsonNSE addStr) addStr pod.Namespace = .ok networks →
      processNetworks env networks reqs₂ nsMap₂ = .error msg →
      mutateAddStage env pod udp addStr reqs₂ nsMap₂ = denyResponse msg) ∧
    (∀ (patch : List JsonPatchOperation) (ex de : List (String × String)),
      (mergeStringMaps ex de = [] → createNodeSelectorPatch patch ex de = patch) ∧
      (mergeStringMaps ex de ≠ [] → createNodeSelectorPatch patch ex de =
        patch ++ [⟨"add", "/spec/nodeSelector", .strMap (mergeStringMaps ex de)⟩]) ∧
      (∀ k v, (de.map Prod.fst).Nodup → mapLookup de k = some v →
        mapLookup (mergeStringMaps ex de) k = some v) ∧
      (∀ k, mapLookup de k = none →
        mapLookup (mergeStringMaps ex de) k = mapLookup ex k)) ∧
    (∀ (env : MutateEnv) (pod : Pod) udp nsMap₂,
      buildPatch env pod udp [] nsMap₂ = createNodeSelectorPatch [] pod.NodeSelector nsMap₂) := by
  refine ⟨?_, ?_, ?_, ?_, ?_, ?_, ?_, ?_⟩
  · intro v hv hlen
    rw [parseNetworkAttachDefinition_cache sw cl net reqs nsMap annots hcache,
      parseNodeSelectorValue_toolong net.Name annots nsMap v hv hlen]
    exact ⟨_, rfl⟩
  · intro v k val hv hsplit
    rw [parseNetworkAttachDefinition_cache sw cl net reqs nsMap annots hcache,
      parseNodeSelectorValue_two net.Name annots nsMap v k val hv hsplit]
  · intro v v0 hv hsplit
    rw [parseNetworkAttachDefinition_cache sw cl net reqs nsMap annots hcache,
      parseNodeSelectorValue_single net.Name annots nsMap v v0 hv hsplit]
  · intro m k v
    exact mapLookup_mapSet_self m k v
  · intro env n rest reqs₂ nsMap₂ e herr
    simp only [processNetworks, herr]
  · intro env pod udp addStr reqs₂ nsMap₂ networks msg hne hparse hproc
    simp only [mutateAddStage, if_neg hne, hparse, hproc]
  · intro patch ex de
    refine ⟨?_, ?_, ?_, ?_⟩
    · intro hm
      simp only [createNodeSelectorPatch, hm, List.isEmpty_nil, if_pos]
    · intro hm
      have : (mergeStringMaps ex de).isEmpty = false := by
        rcases hml : mergeStringMaps ex de with _ | ⟨kv, rest⟩
        · exact absurd hml hm
        · rfl
      simp only [createNodeSelectorPatch, this, Bool.false_eq_true, if_false]
    · exact fun k v hnd h => mergeStringMaps_lookup_some de ex k v hnd h
    · exact fun k h => mergeStringMaps_lookup_none de ex k h
  · intro env pod udp nsMap₂
    simp only [buildPatch, List.isEmpty_nil, if_pos]

/-- Witness for C5: the NAD annotated `master=eno3` yields the desired pair,
an `a=b=c` value is a hard error, and the merged selector is emitted as one
add operation over a non-colliding existing selector. -/
theorem node_selector_parse_and_patch_witness :
    parseNetworkAttachDefinition ⟨["k8s.v1.cni.cncf.io/resourceName"], false, false⟩
      ⟨[(("ns1", "net1"), [("k8s.v1.cni.cncf.io/nodeSelector", "master=eno3")])], []⟩
      ⟨"ns1", "net1", ""⟩ [] [] = .ok ([], [("master", "eno3")]) ∧
    (∃ e, parseNetworkAttachDefinition ⟨["k8s.v1.cni.cncf.io/resourceName"], false, false⟩
      ⟨[(("ns1", "net1"), [("k8s.v1.cni.cncf.io/nodeSelector", "a=b=c")])], []⟩
      ⟨"ns1", "net1", ""⟩ [] [] = .error e) ∧
    createNodeSelectorPatch [] [("x", "1")] [("master", "eno3")] =
      [⟨"add", "/spec/nodeSelector", .strMap [("x", "1"), ("master", "eno3")]⟩] := by
  refine ⟨?_, ?_, ?_⟩
  · have h := (node_selector_parse_and_patch ⟨["k8s.v1.cni.cncf.io/resourceName"], false, false⟩
      ⟨[(("ns1", "net1"), [("k8s.v1.cni.cncf.io/nodeSelector", "master=eno3")])], []⟩
      ⟨"ns1", "net1", ""⟩ [] [] [("k8s.v1.cni.cncf.io/nodeSelector", "master=eno3")]
      (by decide)).2.1 "master=eno3" "master" "eno3" (by decide) (by decide)
    exact h.trans (by decide)
  · exact (node_selector_parse_and_patch ⟨["k8s.v1.cni.cncf.io/resourceName"], false, false⟩
      ⟨[(("ns1", "net1"), [("k8s.v1.cni.cncf.io/nodeSelector", "a=b=c")])], []⟩
      ⟨"ns1", "net1", ""⟩ [] [] [("k8s.v1.cni.cncf.io/nodeSelector", "a=b=c")]
      (by decide)).1 "a=b=c" (by decide) (by decide)
  · have h := ((node_selector_parse_and_patch ⟨["k8s.v1.cni.cncf.io/resourceName"], false, false⟩
      ⟨[(("ns1", "net1"), [("k8s.v1.cni.cncf.io/nodeSelector", "master=eno3")])], []⟩
      ⟨"ns1", "net1", ""⟩ [] [] [("k8s.v1.cni.cncf.io/nodeSelector", "master=eno3")]
      (by decide)).2.2.2.2.2.2.1 [] [("x", "1")] [("master", "eno3")]).2.1 (by decide)
    exact h.trans (by decide)

/-! ### Claim C6 -/

theorem createEnvPatch_append (patch : List JsonPatchOperation) (c : Container)
    (i : Nat) (en ev : String) :
    createEnvPatch patch c i en ev = patch ++ createEnvPatch [] c i en ev := by
  by_cases h1 : c.Env.isEmpty
  · simp [createEnvPatch, addEnvVar, h1]
  · by_cases h2 : c.Env.any (fun e => e.1 == en)
    · simp [createEnvPatch, h1, h2]
    · simp [createEnvPatch, addEnvVar, h1, h2]

theorem processHugepagesAux_fst_append (cs : List Container) :
    ∀ (i : Nat) (patch : List JsonPatchOperation),
      (processHugepagesAux patch i cs).1 = patch ++ (processHugepagesAux [] i cs).1 := by
  induction cs with
  | nil => intro i patch; simp [processHugepagesAux]
  | cons c rest ih =>
    intro i patch
    simp only [processHugepagesAux]
    by_cases hc : (hugepageRequestDescriptors c ++ hugepageLimitDescriptors c).isEmpty
    · simp only [hc, if_true, if_pos]
      exact ih (i + 1) patch
    · simp only [hc, Bool.false_eq_true, if_false, if_neg]
      rw [ih (i + 1) (createEnvPatch patch c i EnvNameContainerName c.Name),
        ih (i + 1) (createEnvPatch [] c i EnvNameContainerName c.Name),
        createEnvPatch_append patch c i EnvNameContainerName c.Name,
        List.append_assoc]

theorem processHugepagesAux_snd (cs : List Container) :
    ∀ (i : Nat) (patch : List JsonPatchOperation),
      (processHugepagesAux patch i cs).2 =
        cs.flatMap fun c => hugepageRequestDescriptors c ++ hugepageLimitDescriptors c := by
  induction cs with
  | nil => intro i patch; rfl
  | cons c rest ih =>
    intro i patch
    simp only [processHugepagesAux, List.flatMap_cons]
    rw [ih]

theorem processHugepagesAux_env (cs : List Container) :
    ∀ (i : Nat) (patch : List JsonPatchOperation) (j : Nat) (hj : j < cs.length),
      (hugepageRequestDescriptors (cs.get ⟨j, hj⟩) ++
        hugepageLimitDescriptors (cs.get ⟨j, hj⟩)) ≠ [] →
      ∃ pre post, (processHugepagesAux patch i cs).1 =
        pre ++ createEnvPatch [] (cs.get ⟨j, hj⟩) (i + j) EnvNameContainerName
          (cs.get ⟨j, hj⟩).Name ++ post := by
  induction cs with
  | nil => intro i patch j hj; exact absurd hj (Nat.not_lt_zero j)
  | cons c rest ih =>
    intro i patch j hj hne
    cases j with
    | zero =>
      have hget : (c :: rest).get ⟨0, hj⟩ = c := rfl
      rw [hget] at hne ⊢
      have hcemp : ¬ (hugepageRequestDescriptors c ++ hugepageLimitDescriptors c).isEmpty = true := by
        intro hemp
        exact hne (List.isEmpty_iff.mp hemp)
      simp only [processHugepagesAux, if_neg hcemp]
      rw [processHugepagesAux_fst_append rest (i + 1)
        (createEnvPatch patch c i EnvNameContainerName c.Name),
        createEnvPatch_append patch c i EnvNameContainerName c.Name]
      refine ⟨patch, (processHugepagesAux [] (i + 1) rest).1, ?_⟩
      simp
    | succ j' =>
      have hj' : j' < rest.length := Nat.lt_of_succ_lt_succ hj
      have hget : (c :: rest).get ⟨j' + 1, hj⟩ = rest.get ⟨j', hj'⟩ := rfl
      rw [hget] at hne ⊢
      simp only [processHugepagesAux]
      rcases ih (i + 1)
        (if (hugepageRequestDescriptors c ++ hugepageLimitDescriptors c).isEmpty then patch
         else createEnvPatch patch c i EnvNameContainerName c.Name) j' hj' hne with
        ⟨pre, post, hpp⟩
      refine ⟨pre, post, ?_⟩
      rw [show i + 1 + j' = i + (j' + 1) by omega] at hpp
      exact hpp

/-- Claim C6: hugepage Downward-API processing (run by the handler when the
hugepage feature flag is enabled). Every non-zero resource entry matching
`^hugepages-(.+)$` in a container's requests (resp. limits) yields a
descriptor with file path `hugepages_<size-without-i>_request_<name>` (resp.
`_limit_`), every descriptor stems from such a non-zero entry (zero
quantities produce none), each matched container's `CONTAINER_NAME`
environment contribution is spliced into the patch, and that contribution
adds `CONTAINER_NAME=<name>` unless the container already defines a
`CONTAINER_NAME` variable, in which case nothing is emitted (a differing
value is never corrected). -/
theorem hugepage_downward_api_descriptors (patch : List JsonPatchOperation)
    (containers : List Container) :
    (∀ c ∈ containers, ∀ rn q, (rn, q) ∈ c.Requests → q ≠ 0 →
      ∀ sz, hugepageSizeOf rn = some sz →
      (⟨"requests." ++ rn, c.Name,
        "hugepages_" ++ stripLetterI sz ++ "_request_" ++ c.Name⟩ : hugepageResourceData) ∈
        (processHugepagesForDownwardAPI patch containers).2) ∧
    (∀ c ∈ containers, ∀ rn q, (rn, q) ∈ c.Limits → q ≠ 0 →
      ∀ sz, hugepageSizeOf rn = some sz →
      (⟨"limits." ++ rn, c.Name,
        "hugepages_" ++ stripLetterI sz ++ "_limit_" ++ c.Name⟩ : hugepageResourceData) ∈
        (processHugepagesForDownwardAPI patch containers).2) ∧
    (∀ d ∈ (processHugepagesForDownwardAPI patch containers).2, ∃ c ∈ containers,
      (∃ rn q sz, (rn, q) ∈ c.Requests ∧ q ≠ 0 ∧ hugepageSizeOf rn = some sz ∧
        d = ⟨"requests." ++ rn, c.Name,
          "hugepages_" ++ stripLetterI sz ++ "_request_" ++ c.Name⟩) ∨
      (∃ rn q sz, (rn, q) ∈ c.Limits ∧ q ≠ 0 ∧ hugepageSizeOf rn = some sz ∧
        d = ⟨"limits." ++ rn, c.Name,
          "hugepages_" ++ stripLetterI sz ++ "_limit_" ++ c.Name⟩)) ∧
    (∀ j (hj : j < containers.length),
      (hugepageRequestDescriptors (containers.get ⟨j, hj⟩) ++
        hugepageLimitDescriptors (containers.get ⟨j, hj⟩)) ≠ [] →
      ∃ pre post, (processHugepagesForDownwardAPI patch containers).1 =
        pre ++ createEnvPatch [] (containers.get ⟨j, hj⟩) j EnvNameContainerName
          (containers.get ⟨j, hj⟩).Name ++ post) ∧
    (∀ (p : List JsonPatchOperation) (c : Container) (i : Nat),
      (c.Env.isEmpty = true → createEnvPatch p c i EnvNameContainerName c.Name =
        p ++ [⟨"add", "/spec/containers/" ++ toString i ++ "/env",
          .envList EnvNameContainerName c.Name⟩]) ∧
      (c.Env.isEmpty = false → c.Env.any (fun e => e.1 == EnvNameContainerName) = false →
        createEnvPatch p c i EnvNameContainerName c.Name =
          p ++ [⟨"add", "/spec/containers/" ++ toString i ++ "/env/-",
            .envVar EnvNameContainerName c.Name⟩]) ∧
      (c.Env.any (fun e => e.1 == EnvNameContainerName) = true →
        createEnvPatch p c i EnvNameContainerName c.Name = p)) := by
  refine ⟨?_, ?_, ?_, ?_, ?_⟩
  · intro c hc rn q hmem hq sz hsz
    rw [processHugepagesForDownwardAPI, processHugepagesAux_snd]
    refine List.mem_flatMap.mpr ⟨c, hc, List.mem_append_left _ ?_⟩
    refine List.mem_filterMap.mpr ⟨(rn, q), hmem, ?_⟩
    simp only [hsz, if_pos hq]
  · intro c hc rn q hmem hq sz hsz
    rw [processHugepagesForDownwardAPI, processHugepagesAux_snd]
    refine List.mem_flatMap.mpr ⟨c, hc, List.mem_append_right _ ?_⟩
    refine List.mem_filterMap.mpr ⟨(rn, q), hmem, ?_⟩
    simp only [hsz, if_pos hq]
  · intro d hd
    rw [processHugepagesForDownwardAPI, processHugepagesAux_snd] at hd
    rcases List.mem_flatMap.mp hd with ⟨c, hc, hdm⟩
    refine ⟨c, hc, ?_⟩
    rcases List.mem_append.mp hdm with hreq | hlim
    · rcases List.mem_filterMap.mp hreq with ⟨rq, hmem, heq⟩
      refine Or.inl ⟨rq.1, rq.2, ?_⟩
      cases hsz : hugepageSizeOf rq.1 with
      | none => simp only [hsz] at heq; cases heq
      | some sz =>
        simp only [hsz] at heq
        by_cases hq : rq.2 ≠ 0
        · rw [if_pos hq] at heq
          cases heq
          exact ⟨sz, hmem, hq, rfl, rfl⟩
        · rw [if_neg hq] at heq
          cases heq
    · rcases List.mem_filterMap.mp hlim with ⟨rq, hmem, heq⟩
      refine Or.inr ⟨rq.1, rq.2, ?_⟩
      cases hsz : hugepageSizeOf rq.1 with
      | none => simp only [hsz] at heq; cases heq
      | some sz =>
        simp only [hsz] at heq
        by_cases hq : rq.2 ≠ 0
        · rw [if_pos hq] at heq
          cases heq
          exact ⟨sz, hmem, hq, rfl, rfl⟩
        · rw [if_neg hq] at heq
          cases heq
  · intro j hj hne
    have := processHugepagesAux_env containers 0 patch j hj hne
    rw [Nat.zero_add] at this
    exact this
  · intro p c i
    refine ⟨?_, ?_, ?_⟩
    · intro hemp
      simp [createEnvPatch, addEnvVar, hemp]
    · intro hemp hany
      simp [createEnvPatch, addEnvVar, hemp, hany]
    · intro hany
      have hemp : c.Env.isEmpty = false := by
        cases hE : c.Env with
        | nil => rw [hE] at hany; cases hany
        | cons e rest => rfl
      simp [createEnvPatch, hemp, hany]

/-- Witness for C6: a container limiting `hugepages-1Gi: 2` yields the
descriptor with path `hugepages_1G_limit_app`, and its env contribution adds
`CONTAINER_NAME=app`; a container already defining `CONTAINER_NAME` gets
nothing. -/
theorem hugepage_downward_api_descriptors_witness :
    (⟨"limits.hugepages-1Gi", "app", "hugepages_1G_limit_app"⟩ : hugepageResourceData) ∈
      (processHugepagesForDownwardAPI []
        [⟨"app", [], [("hugepages-1Gi", 2)], [], []⟩]).2 ∧
    createEnvPatch [] ⟨"app", [], [("hugepages-1Gi", 2)], [], []⟩ 0
      EnvNameContainerName "app" =
      [⟨"add", "/spec/containers/0/env", .envList EnvNameContainerName "app"⟩] ∧
    createEnvPatch [] ⟨"app2", [], [("hugepages-1Gi", 2)], [("CONTAINER_NAME", "zz")], []⟩ 0
      EnvNameContainerName "app2" = [] := by
  refine ⟨?_, ?_, ?_⟩
  · have h := (hugepage_downward_api_descriptors []
      [⟨"app", [], [("hugepages-1Gi", 2)], [], []⟩]).2.1
      ⟨"app", [], [("hugepages-1Gi", 2)], [], []⟩ (by simp)
      "hugepages-1Gi" 2 (by simp) (by decide) "1Gi" (by decide)
    simpa using h
  · have h := ((hugepage_downward_api_descriptors []
      [⟨"app", [], [("hugepages-1Gi", 2)], [], []⟩]).2.2.2.2 []
      ⟨"app", [], [("hugepages-1Gi", 2)], [], []⟩ 0).1 (by decide)
    simpa using h
  · exact ((hugepage_downward_api_descriptors []
      [⟨"app2", [], [("hugepages-1Gi", 2)], [("CONTAINER_NAME", "zz")], []⟩]).2.2.2.2 []
      ⟨"app2", [], [("hugepages-1Gi", 2)], [("CONTAINER_NAME", "zz")], []⟩ 0).2.2 (by decide)

/-! ### Claim C7 -/

/-- Claim C7: request intake fails with a raw HTTP error, never an admission
response, and no patch logic runs — HTTP 400 for an empty or unreadable
body, the body read capped at 1 MiB (an over-cap body reads as empty, hence
400), HTTP 415 for a wrong `Content-Type`, HTTP 400 when the body does not
deserialize into an object of kind `AdmissionReview`. -/
theorem intake_http_errors (env : MutateEnv) (req : HttpRequestModel) :
    (readRequestBodyLen req = 0 →
      mutateHandler env req = .httpError 400 "Error reading HTTP request: empty body") ∧
    (maxBytes < req.bodyLen →
      mutateHandler env req = .httpError 400 "Error reading HTTP request: empty body") ∧
    (readRequestBodyLen req ≠ 0 → req.contentType ≠ "application/json" →
      mutateHandler env req = .httpError 415
        ("Invalid Content-Type=\x27" ++ req.contentType ++
          "\x27, expected \x27application/json\x27")) ∧
    (readRequestBodyLen req ≠ 0 → req.contentType = "application/json" → req.decode = none →
      mutateHandler env req = .httpError 400 "error deserializing AdmissionReview") ∧
    (∀ ar, readRequestBodyLen req ≠ 0 → req.contentType = "application/json" →
      req.decode = some ar → ar.Kind ≠ "AdmissionReview" →
      mutateHandler env req = .httpError 400
        "error deserializing AdmissionReview: received object is not an AdmissionReview") := by
  have hempty : readRequestBodyLen req = 0 →
      mutateHandler env req = .httpError 400 "Error reading HTTP request: empty body" := by
    intro h
    simp only [mutateHandler, readAdmissionReview, if_pos h]
  refine ⟨hempty, ?_, ?_, ?_, ?_⟩
  · intro hcap
    refine hempty ?_
    have hle : ¬ req.bodyLen ≤ maxBytes := Nat.not_le.mpr hcap
    simp [readRequestBodyLen, hle]
  · intro hbody hct
    simp only [mutateHandler, readAdmissionReview, if_neg hbody, ne_eq, hct,
      not_false_eq_true, if_pos]
  · intro hbody hct hdec
    simp only [mutateHandler, readAdmissionReview, if_neg hbody, hct, ne_eq,
      not_true_eq_false, if_false, hdec]
  · intro ar hbody hct hdec hkind
    simp only [mutateHandler, readAdmissionReview, if_neg hbody, hct, ne_eq,
      not_true_eq_false, if_false, hdec, hkind, not_false_eq_true, if_pos]

/-- Witness for C7 on five concrete requests: empty body, 2 MiB body, wrong
content type, undecodable body, and a decodable object of a different kind. -/
theorem intake_http_errors_witness :
    mutateHandler ⟨⟨[], false, false⟩, ⟨[], []⟩, ⟨.ok [], .ok [], .ok [], .ok []⟩,
        fun _ => none, fun _ => []⟩
      ⟨true, 0, true, "application/json", none⟩ =
      .httpError 400 "Error reading HTTP request: empty body" ∧
    mutateHandler ⟨⟨[], false, false⟩, ⟨[], []⟩, ⟨.ok [], .ok [], .ok [], .ok []⟩,
        fun _ => none, fun _ => []⟩
      ⟨true, 2097152, true, "application/json", none⟩ =
      .httpError 400 "Error reading HTTP request: empty body" ∧
    mutateHandler ⟨⟨[], false, false⟩, ⟨[], []⟩, ⟨.ok [], .ok [], .ok [], .ok []⟩,
        fun _ => none, fun _ => []⟩
      ⟨true, 10, true, "text/plain", none⟩ =
      .httpError 415
        "Invalid Content-Type=\x27text/plain\x27, expected \x27application/json\x27" ∧
    mutateHandler ⟨⟨[], false, false⟩, ⟨[], []⟩, ⟨.ok [], .ok [], .ok [], .ok []⟩,
        fun _ => none, fun _ => []⟩
      ⟨true, 10, true, "application/json", none⟩ =
      .httpError 400 "error deserializing AdmissionReview" ∧
    mutateHandler ⟨⟨[], false, false⟩, ⟨[], []⟩, ⟨.ok [], .ok [], .ok [], .ok []⟩,
        fun _ => none, fun _ => []⟩
      ⟨true, 10, true, "application/json",
        some ⟨"Pod", "", ⟨⟨"", "", [], [], [], [], [], []⟩, none⟩⟩⟩ =
      .httpError 400
        "error deserializing AdmissionReview: received object is not an AdmissionReview" := by
  refine ⟨?_, ?_, ?_, ?_, ?_⟩
  · exact (intake_http_errors _ _).1 (by decide)
  · exact (intake_http_errors _ _).2.1 (by decide)
  · exact (intake_http_errors _ _).2.2.1 (by decide) (by decide)
  · exact (intake_http_errors _ _).2.2.2.1 (by decide) (by decide) (by decide)
  · exact (intake_http_errors _ _).2.2.2.2
      ⟨"Pod", "", ⟨⟨"", "", [], [], [], [], [], []⟩, none⟩⟩
      (by decide) (by decide) (by decide) (by decide)

/-! ### Claim C10 -/

theorem assembleResponse_shape (env : MutateEnv) (pod : Pod)
    (udp : List JsonPatchOperation) (reqs : List (String × Int))
    (nsMap : List (String × String)) (r : AdmissionResponseModel)
    (h : assembleResponse env pod udp reqs nsMap = .response r) :
    (∃ ops, r.Patch = some ops) ∧ r.PatchType = some "JSONPatch" := by
  simp only [assembleResponse, MutateOutcome.response.injEq] at h
  rw [← h]
  exact ⟨⟨buildPatch env pod udp reqs nsMap, rfl⟩, rfl⟩

theorem mutateAddStage_shape (env : MutateEnv) (pod : Pod)
    (udp : List JsonPatchOperation) (addStr : String) (reqs : List (String × Int))
    (nsMap : List (String × String)) (r : AdmissionResponseModel)
    (h : mutateAddStage env pod udp addStr reqs nsMap = .response r)
    (ha : r.Allowed = true) :
    (∃ ops, r.Patch = some ops) ∧ r.PatchType = some "JSONPatch" := by
  simp only [mutateAddStage] at h
  split at h
  · exact assembleResponse_shape _ _ _ _ _ _ h
  · split at h
    · cases h
    · split at h
      · simp only [denyResponse, MutateOutcome.response.injEq] at h
        rw [← h] at ha
        cases ha
      · exact assembleResponse_shape _ _ _ _ _ _ h

theorem mutateDefStage_shape (env : MutateEnv) (pod : Pod)
    (udp : List JsonPatchOperation) (defStr addStr : String)
    (r : AdmissionResponseModel)
    (h : mutateDefStage env pod udp defStr addStr = .response r)
    (ha : r.Allowed = true) :
    (∃ ops, r.Patch = some ops) ∧ r.PatchType = some "JSONPatch" := by
  simp only [mutateDefStage] at h
  split at h
  · exact mutateAddStage_shape _ _ _ _ _ _ _ h ha
  · split at h
    · cases h
    · split at h
      · simp only [denyResponse, MutateOutcome.response.injEq] at h
        rw [← h] at ha
        cases ha
      · exact mutateAddStage_shape _ _ _ _ _ _ _ h ha
    · exact mutateAddStage_shape _ _ _ _ _ _ _ h ha

/-- Claim C10: whenever a request whose pod carries (directly or via matched
user-defined injection fragments) one of the two network-selection
annotation keys reaches response assembly without a deny or HTTP error, the
response always has `Patch` set (the serialization of the accumulated list,
possibly empty) and `PatchType` set to `JSONPatch`. -/
theorem patch_always_attached (env : MutateEnv) (req : HttpRequestModel)
    (r : AdmissionResponseModel)
    (h : mutateHandler env req = .response r)
    (ha : r.Allowed = true)
    (hann : ∀ ar, readAdmissionReview req = .ok ar →
      (getNetworkSelections defaultNetworkAnnotationKey
          (deserializePod env.owners ar.PodDecode ar.RequestNamespace).1
          (env.createUserDefinedPatch
            (deserializePod env.owners ar.PodDecode ar.RequestNamespace).1)).isSome = true ∨
      (getNetworkSelections networksAnnotationKey
          (deserializePod env.owners ar.PodDecode ar.RequestNamespace).1
          (env.createUserDefinedPatch
            (deserializePod env.owners ar.PodDecode ar.RequestNamespace).1)).isSome = true) :
    (∃ ops, r.Patch = some ops) ∧ r.PatchType = some "JSONPatch" := by
  cases hra : readAdmissionReview req with
  | error es =>
    simp only [mutateHandler, hra] at h
    cases h
  | ok ar =>
    simp only [mutateHandler, hra] at h
    rcases hpd : (deserializePod env.owners ar.PodDecode ar.RequestNamespace).2 with _ | e
    · rw [hpd] at h
      have hsome := hann ar hra
      simp only [mutateCore] at h
      rw [if_pos (by rcases hsome with hs | hs <;> simp [hs])] at h
      exact mutateDefStage_shape _ _ _ _ _ _ h ha
    · rw [hpd] at h
      simp only [denyResponse, MutateOutcome.response.injEq] at h
      rw [← h] at ha
      cases ha

/-- Witness for C10: a pod whose secondary-networks annotation is present but
empty produces zero operations, yet the response still attaches the (empty)
patch body and the `JSONPatch` patch type. -/
theorem patch_always_attached_witness :
    mutateHandler
      ⟨⟨["k8s.v1.cni.cncf.io/resourceName"], false, false⟩, ⟨[], []⟩,
        ⟨.ok [], .ok [], .ok [], .ok []⟩, fun _ => none, fun _ => []⟩
      ⟨true, 42, true, "application/json",
        some ⟨"AdmissionReview", "ns1",
          ⟨⟨"ns1", "p", [], [("k8s.v1.cni.cncf.io/networks", "")], [],
            [⟨"c", [], [], [], []⟩], [], []⟩, none⟩⟩⟩ =
      .response ⟨true, some "allowed", some [], some "JSONPatch"⟩ ∧
    (∃ ops, (⟨true, some "allowed", some [], some "JSONPatch"⟩ :
        AdmissionResponseModel).Patch = some ops) ∧
    (⟨true, some "allowed", some [], some "JSONPatch"⟩ :
        AdmissionResponseModel).PatchType = some "JSONPatch" := by
  refine ⟨by decide, ?_⟩
  refine patch_always_attached
    ⟨⟨["k8s.v1.cni.cncf.io/resourceName"], false, false⟩, ⟨[], []⟩,
      ⟨.ok [], .ok [], .ok [], .ok []⟩, fun _ => none, fun _ => []⟩
    ⟨true, 42, true, "application/json",
      some ⟨"AdmissionReview", "ns1",
        ⟨⟨"ns1", "p", [], [("k8s.v1.cni.cncf.io/networks", "")], [],
          [⟨"c", [], [], [], []⟩], [], []⟩, none⟩⟩⟩
    ⟨true, some "allowed", some [], some "JSONPatch"⟩ (by decide) rfl ?_
  intro ar har
  have h' : (Except.ok (⟨"AdmissionReview", "ns1",
      ⟨⟨"ns1", "p", [], [("k8s.v1.cni.cncf.io/networks", "")], [],
        [⟨"c", [], [], [], []⟩], [], []⟩, none⟩⟩ : AdmissionReviewModel) :
      Except (Nat × String) AdmissionReviewModel) = Except.ok ar := har
  cases h'
  right
  decide

/-! ### Claim C8 -/

/-- Counterexample to C8 as stated: a pod whose secondary-networks annotation
is the unparseable `a/b/c` (two `/` runes) makes the handler emit a raw HTTP
400 error — it never produces an admission response at all, so in particular
no `Allowed = false` response. -/
theorem deny_on_unparseable_networks_counterexample :
    mutateHandler
      ⟨⟨["k8s.v1.cni.cncf.io/resourceName"], false, false⟩, ⟨[], []⟩,
        ⟨.ok [], .ok [], .ok [], .ok []⟩, fun _ => none, fun _ => []⟩
      ⟨true, 42, true, "application/json",
        some ⟨"AdmissionReview", "ns1",
          ⟨⟨"ns1", "p", [], [("k8s.v1.cni.cncf.io/networks", "a/b/c")], [],
            [⟨"c", [], [], [], []⟩], [], []⟩, none⟩⟩⟩ =
      .httpError 400 ("error parsing network selection element: " ++
        "invalid network selection element - more than one \x27/\x27 rune in: \x27a/b/c\x27") ∧
    ∀ resp, mutateHandler
      ⟨⟨["k8s.v1.cni.cncf.io/resourceName"], false, false⟩, ⟨[], []⟩,
        ⟨.ok [], .ok [], .ok [], .ok []⟩, fun _ => none, fun _ => []⟩
      ⟨true, 42, true, "application/json",
        some ⟨"AdmissionReview", "ns1",
          ⟨⟨"ns1", "p", [], [("k8s.v1.cni.cncf.io/networks", "a/b/c")], [],
            [⟨"c", [], [], [], []⟩], [], []⟩, none⟩⟩⟩ ≠
      .response resp := by
  have h :
      mutateHandler
        ⟨⟨["k8s.v1.cni.cncf.io/resourceName"], false, false⟩, ⟨[], []⟩,
          ⟨.ok [], .ok [], .ok [], .ok []⟩, fun _ => none, fun _ => []⟩
        ⟨true, 42, true, "application/json",
          some ⟨"AdmissionReview", "ns1",
            ⟨⟨"ns1", "p", [], [("k8s.v1.cni.cncf.io/networks", "a/b/c")], [],
              [⟨"c", [], [], [], []⟩], [], []⟩, none⟩⟩⟩ =
        .httpError 400 ("error parsing network selection element: " ++
          "invalid network selection element - more than one \x27/\x27 rune in: \x27a/b/c\x27") := by
    decide
  refine ⟨h, fun resp hr => ?_⟩
  rw [h] at hr
  cases hr

/-- Claim C8 (amended): a syntactically unparseable network-selection
annotation is surfaced as a raw HTTP 400 error carrying the parse error's
message — not as an admission deny response — both when the default-network
annotation value fails to parse and when, with no default-network annotation,
the secondary-networks annotation value fails to parse. -/
theorem unparseable_networks_http_error (env : MutateEnv) (req : HttpRequestModel)
    (ar : AdmissionReviewModel)
    (h1 : readAdmissionReview req = .ok ar)
    (hpd : (deserializePod env.owners ar.PodDecode ar.RequestNamespace).2 = none) :
    (∀ s e, getNetworkSelections defaultNetworkAnnotationKey
        (deserializePod env.owners ar.PodDecode ar.RequestNamespace).1
        (env.createUserDefinedPatch
          (deserializePod env.owners ar.PodDecode ar.RequestNamespace).1) = some s →
      s ≠ "" →
      parsePodNetworkSelections (env.jsonNSE s) s
        (deserializePod env.owners ar.PodDecode ar.RequestNamespace).1.Namespace = .error e →
      mutateHandler env req = .httpError 400 e) ∧
    (∀ s e, getNetworkSelections defaultNetworkAnnotationKey
        (deserializePod env.owners ar.PodDecode ar.RequestNamespace).1
        (env.createUserDefinedPatch
          (deserializePod env.owners ar.PodDecode ar.RequestNamespace).1) = none →
      getNetworkSelections networksAnnotationKey
        (deserializePod env.owners ar.PodDecode ar.RequestNamespace).1
        (env.createUserDefinedPatch
          (deserializePod env.owners ar.PodDecode ar.RequestNamespace).1) = some s →
      s ≠ "" →
      parsePodNetworkSelections (env.jsonNSE s) s
        (deserializePod env.owners ar.PodDecode ar.RequestNamespace).1.Namespace = .error e →
      mutateHandler env req = .httpError 400 e) := by
  constructor
  · intro s e hdef hs hparse
    simp only [mutateHandler, h1, hpd, mutateCore, hdef, Option.isSome_some, Bool.true_or,
      if_true, Option.getD_some]
    simp only [mutateDefStage, if_neg hs, hparse]
  · intro s e hdef hadd hs hparse
    simp only [mutateHandler, h1, hpd, mutateCore, hdef, hadd, Option.isSome_none,
      Option.isSome_some, Bool.false_or, if_true, Option.getD_some, Option.getD_none]
    simp only [mutateDefStage, if_pos rfl]
    simp only [mutateAddStage, if_neg hs, hparse]
    simp

/-- Witness for the amended C8 at the counterexample's input. -/
theorem unparseable_networks_http_error_witness :
    mutateHandler
      ⟨⟨["k8s.v1.cni.cncf.io/resourceName"], false, false⟩, ⟨[], []⟩,
        ⟨.ok [], .ok [], .ok [], .ok []⟩, fun _ => none, fun _ => []⟩
      ⟨true, 43, true, "application/json",
        some ⟨"AdmissionReview", "ns2",
          ⟨⟨"ns2", "q", [], [("k8s.v1.cni.cncf.io/networks", "a/b/c")], [],
            [⟨"c", [], [], [], []⟩], [], []⟩, none⟩⟩⟩ =
      .httpError 400 ("error parsing network selection element: " ++
        "invalid network selection element - more than one \x27/\x27 rune in: \x27a/b/c\x27") := by
  exact (unparseable_networks_http_error
    ⟨⟨["k8s.v1.cni.cncf.io/resourceName"], false, false⟩, ⟨[], []⟩,
      ⟨.ok [], .ok [], .ok [], .ok []⟩, fun _ => none, fun _ => []⟩
    ⟨true, 43, true, "application/json",
      some ⟨"AdmissionReview", "ns2",
        ⟨⟨"ns2", "q", [], [("k8s.v1.cni.cncf.io/networks", "a/b/c")], [],
          [⟨"c", [], [], [], []⟩], [], []⟩, none⟩⟩⟩
    ⟨"AdmissionReview", "ns2",
      ⟨⟨"ns2", "q", [], [("k8s.v1.cni.cncf.io/networks", "a/b/c")], [],
        [⟨"c", [], [], [], []⟩], [], []⟩, none⟩⟩
    (by decide) (by decide)).2 "a/b/c"
    ("error parsing network selection element: " ++
      "invalid network selection element - more than one \x27/\x27 rune in: \x27a/b/c\x27")
    (by decide) (by decide) (by decide) (by decide)

/-! ### Claim C9 -/

/-- Counterexample to C9 as stated: elements decoded from a JSON array are
not validated at all — a name violating the pattern passes through — and on
the comma-separated path the namespace filled in from the default namespace
is not validated either. -/
theorem selection_element_invariant_counterexample :
    parsePodNetworkSelections (some [⟨"ns1", "NOT_VALID!", ""⟩])
      "[\x7b\"namespace\":\"ns1\",\"name\":\"NOT_VALID!\"\x7d]" "default" =
      .ok [⟨"ns1", "NOT_VALID!", ""⟩] ∧
    validNameRegexMatch "NOT_VALID!" = false ∧
    parsePodNetworkSelections none "/net1" "BAD_NS" = .ok [⟨"BAD_NS", "net1", ""⟩] ∧
    validNameRegexMatch "BAD_NS" = false := by
  refine ⟨by decide, by decide, by decide, by decide⟩

theorem string_eq_empty_of_length_eq_zero {s : String} (h : s.length = 0) : s = "" := by
  cases s with
  | mk data =>
    cases data with
    | nil => rfl
    | cons c cs => simp [String.length] at h

theorem validateUnits_none : ∀ us : List String, validateUnits us = none →
    ∀ u ∈ us, validNameRegexMatch u = true ∨ u = "" := by
  intro us
  induction us with
  | nil => intro _ u hu; cases hu
  | cons u0 rest ih =>
    intro h u hu
    simp only [validateUnits] at h
    split at h
    · cases h
    · rename_i hcond
      rcases List.mem_cons.mp hu with heq | hrest
      · subst heq
        by_cases hv : validNameRegexMatch u = true
        · exact Or.inl hv
        · refine Or.inr (string_eq_empty_of_length_eq_zero ?_)
          by_contra hlen
          exact hcond (by simp [hv, Nat.pos_of_ne_zero hlen])
      · exact ih h u hrest

theorem finishSelectionElement_ok_units {a b c : String} {e : NetworkSelectionElement}
    (h : finishSelectionElement a b c = .ok e) :
    validateUnits [a, b, c] = none ∧ e = ⟨a, b, c⟩ := by
  simp only [finishSelectionElement] at h
  cases hv : validateUnits [a, b, c] with
  | some msg => rw [hv] at h; cases h
  | none =>
    rw [hv] at h
    cases h
    exact ⟨rfl, rfl⟩

/-- All three fields of an element produced by the string-element parser are
empty or pattern-valid. -/
theorem parseElement_fieldsOk {s d : String} {e : NetworkSelectionElement}
    (h : parsePodNetworkSelectionElement s d = .ok e) :
    (validNameRegexMatch e.Namespace = true ∨ e.Namespace = "") ∧
    (validNameRegexMatch e.Name = true ∨ e.Name = "") ∧
    (validNameRegexMatch e.InterfaceRequest = true ∨ e.InterfaceRequest = "") := by
  have hni : ∀ sel ns nm, parseNameInterface sel ns nm = .ok e →
      (validNameRegexMatch e.Namespace = true ∨ e.Namespace = "") ∧
      (validNameRegexMatch e.Name = true ∨ e.Name = "") ∧
      (validNameRegexMatch e.InterfaceRequest = true ∨ e.InterfaceRequest = "") := by
    intro sel ns nm hpi
    simp only [parseNameInterface] at hpi
    rcases hat : splitOnChar '@' nm with _ | ⟨n, _ | ⟨itf, _ | _⟩⟩ <;> rw [hat] at hpi <;>
      first
      | cases hpi
      | · rcases finishSelectionElement_ok_units hpi with ⟨hu, he⟩
          subst he
          have hmem := validateUnits_none _ hu
          exact ⟨hmem _ (by simp), hmem _ (by simp), hmem _ (by simp)⟩
  simp only [parsePodNetworkSelectionElement] at h
  rcases hsp : splitOnChar '/' s with _ | ⟨u1, _ | ⟨u2, _ | _⟩⟩ <;> rw [hsp] at h <;>
    first
    | cases h
    | exact hni _ _ _ h

theorem parseCommaSeparatedList_fieldsOk (d : String) :
    ∀ (l : List String) (els : List NetworkSelectionElement),
      parseCommaSeparatedList d l = .ok els →
      ∀ e ∈ els,
        (validNameRegexMatch e.Namespace = true ∨ e.Namespace = "") ∧
        (validNameRegexMatch e.Name = true ∨ e.Name = "") ∧
        (validNameRegexMatch e.InterfaceRequest = true ∨ e.InterfaceRequest = "") := by
  intro l
  induction l with
  | nil =>
    intro els h e he
    cases h
    cases he
  | cons s rest ih =>
    intro els h e he
    simp only [parseCommaSeparatedList] at h
    cases hp : parsePodNetworkSelectionElement (goTrimSpace s) d with
    | error msg => rw [hp] at h; cases h
    | ok el =>
      rw [hp] at h
      cases hr : parseCommaSeparatedList d rest with
      | error msg => rw [hr] at h; cases h
      | ok els' =>
        rw [hr] at h
        cases h
        rcases List.mem_cons.mp he with heq | hmem
        · subst heq
          exact parseElement_fieldsOk hp
        · exact ih els' hr e hmem

theorem fillDefaultNamespaces_some_eq {d : String} :
    ∀ {els filled : List NetworkSelectionElement},
      fillDefaultNamespaces d els = some filled →
      filled = els.map fun e => if e.Namespace = "" then { e with Namespace := d } else e := by
  intro els
  induction els with
  | nil => intro filled h; cases h; rfl
  | cons el rest ih =>
    intro filled h
    simp only [fillDefaultNamespaces] at h
    by_cases hns : el.Namespace = ""
    · rw [if_pos hns] at h
      by_cases hd : d = ""
      · rw [if_pos hd] at h; cases h
      · rw [if_neg hd] at h
        cases hr : fillDefaultNamespaces d rest with
        | none => rw [hr] at h; cases h
        | some r =>
          rw [hr] at h
          cases h
          simp only [List.map_cons, if_pos hns, ih hr]
    · rw [if_neg hns] at h
      cases hr : fillDefaultNamespaces d rest with
      | none => rw [hr] at h; cases h
      | some r =>
        rw [hr] at h
        cases h
        simp only [List.map_cons, if_neg hns, ih hr]

/-- Claim C9 (amended): every element produced by `parsePodNetworkSelections`
via the comma-separated string path has `name` and `interfaceRequest` that,
when non-empty, match `^[a-z0-9]([-a-z0-9]*[a-z0-9])?$`, and a `namespace`
that, when non-empty, either matches that pattern or equals the supplied
default namespace (the fill-in step does not validate the default); elements
decoded from a JSON array are not validated (see the counterexample). -/
theorem selection_element_string_path_invariant (raw d : String)
    (result : List NetworkSelectionElement)
    (h : parsePodNetworkSelections none raw d = .ok result) :
    ∀ e ∈ result,
      (e.Name ≠ "" → validNameRegexMatch e.Name = true) ∧
      (e.InterfaceRequest ≠ "" → validNameRegexMatch e.InterfaceRequest = true) ∧
      (e.Namespace ≠ "" → (validNameRegexMatch e.Namespace = true ∨ e.Namespace = d)) := by
  simp only [parsePodNetworkSelections] at h
  by_cases hraw : raw = ""
  · rw [if_pos hraw] at h; cases h
  · rw [if_neg hraw] at h
    cases hcl : parseNetworkSelectionsRaw none raw d with
    | error msg => rw [hcl] at h; cases h
    | ok els =>
      simp only [hcl] at h
      cases hfill : fillDefaultNamespaces d els with
      | none =>
        simp only [hfill] at h
        cases h
        intro e he
        cases he
      | some filled =>
        simp only [hfill] at h
        cases h
        intro e' he'
        rw [fillDefaultNamespaces_some_eq hfill] at he'
        rcases List.mem_map.mp he' with ⟨e, hmem, heq⟩
        have hfo := parseCommaSeparatedList_fieldsOk d (splitOnChar ',' raw) els hcl e hmem
        by_cases hns : e.Namespace = ""
        · rw [if_pos hns] at heq
          subst heq
          refine ⟨?_, ?_, fun _ => Or.inr rfl⟩
          · intro hne
            rcases hfo.2.1 with hv | hv
            · exact hv
            · exact absurd hv hne
          · intro hne
            rcases hfo.2.2 with hv | hv
            · exact hv
            · exact absurd hv hne
        · rw [if_neg hns] at heq
          subst heq
          refine ⟨?_, ?_, ?_⟩
          · intro hne
            rcases hfo.2.1 with hv | hv
            · exact hv
            · exact absurd hv hne
          · intro hne
            rcases hfo.2.2 with hv | hv
            · exact hv
            · exact absurd hv hne
          · intro hne
            rcases hfo.1 with hv | hv
            · exact Or.inl hv
            · exact absurd hv hne

/-- Witness for the amended C9: the parsed selection `ns1/net1@eth1` has a
valid name and interface. -/
theorem selection_element_string_path_invariant_witness :
    validNameRegexMatch "net1" = true ∧ validNameRegexMatch "eth1" = true := by
  have h := selection_element_string_path_invariant "ns1/net1@eth1" "default"
    [⟨"ns1", "net1", "eth1"⟩] (by decide) ⟨"ns1", "net1", "eth1"⟩ (by simp)
  exact ⟨h.1 (by decide), h.2.1 (by decide)⟩

end NRI
